import Mathlib

/-!
Verification of the shadow-memory / runtime subsystem of the syzygy ASan
agent. The definitions below are a shallow embedding of
`syzygy/agent/asan/shadow.cc`, `syzygy/agent/asan/asan_runtime.cc` and the
quarantine contract of `syzygy/agent/asan/heap_managers/block_heap_manager.h`.

Addresses and shadow bytes are natural numbers; the process-wide shadow
array `shadow_` is modelled as a total map from shadow index to byte value.
`::memset` on a byte range is modelled denotationally as a range overwrite.
The marker byte values and the `ShadowMarkerHelper` predicates come from
`shadow_marker.h`, which is not part of the sources here; they are modelled
from the spec's data model (section 3), constrained by every use made of
them in `shadow.cc`.
-/

/-- One shadow byte covers 8 application bytes (`kShadowRatio`). -/
def kShadowRatio : Nat := 8

/-- Modelled from the spec: the first 64 KiB of address space are invalid
(`kAddressLowerBound` in `shadow.h`, not under the sources here). -/
def kAddressLowerBound : Nat := 0x10000

/-- Modelled from the spec: the instrumented process is constrained to the
lower 2 GiB (`kAddressUpperBound`). -/
def kAddressUpperBound : Nat := 0x80000000

/-- Size of the shadow array: one byte per 8-byte granule of the 2 GiB
address space (256 MiB). -/
def kShadowSize : Nat := kAddressUpperBound / kShadowRatio

/-- Modelled from the spec: size of the page-protection bitmap
(one bit per 4096-byte page of the 2 GiB space). -/
def kPageBitsSize : Nat := 0x10000

/-! ## Shadow marker values

Modelled from the spec: `shadow_marker.h` is not under the sources here.
The spec (section 3) fixes the closed set of markers; the concrete byte
values are chosen compatibly with everything `shadow.cc` relies on:
`0` is fully addressable, `1..7` are the partially-addressable forms, and
every other marker compares greater than `kHeapPartiallyAddressableByte7`.
Block-start markers carry `body_size mod 8` in their low three bits and a
nested bit above those. -/

def kHeapAddressableMarker : Nat := 0x00
def kHeapPartiallyAddressableByte7 : Nat := 0x07
def kHeapBlockStartMarker0 : Nat := 0xE0
def kHeapNestedBlockStartMarker0 : Nat := 0xE8
def kAsanMemoryMarker : Nat := 0xF1
def kInvalidAddressMarker : Nat := 0xF2
def kUserRedzoneMarker : Nat := 0xF3
def kHeapBlockEndMarker : Nat := 0xF4
def kHeapNestedBlockEndMarker : Nat := 0xF5
def kHeapLeftPaddingMarker : Nat := 0xF6
def kHeapRightPaddingMarker : Nat := 0xF7
def kAsanReservedMarker : Nat := 0xF8
def kHeapFreedMarker : Nat := 0xFD

/-! ## ShadowMarkerHelper predicates

Modelled from the spec together with their uses in `shadow.cc`. Only
active markers exist in this version of the code (`BuildBlockStart` and
`BuildBlockEnd` are only ever called with `active = true`), so the active
flag is dropped from the builders. -/

/-- A block-start marker (nested or not). -/
def isBlockStart (m : Nat) : Bool := kHeapBlockStartMarker0 ≤ m && m ≤ 0xEF

/-- A nested-block-start marker. -/
def isNestedBlockStart (m : Nat) : Bool := kHeapNestedBlockStartMarker0 ≤ m && m ≤ 0xEF

/-- An (active) block-start marker; in this version all markers are active. -/
def isActiveBlockStart (m : Nat) : Bool := isBlockStart m

/-- Body-size-mod-8 data carried in the low three bits of a block start. -/
def getBlockStartData (m : Nat) : Nat := m % 8

/-- Builds a block-start marker carrying `data = body_size mod 8`. -/
def buildBlockStart (nested : Bool) (data : Nat) : Nat :=
  (if nested then kHeapNestedBlockStartMarker0 else kHeapBlockStartMarker0) + data % 8

/-- A block-end marker (nested or not). -/
def isBlockEnd (m : Nat) : Bool := m == kHeapBlockEndMarker || m == kHeapNestedBlockEndMarker

/-- A nested-block-end marker. -/
def isNestedBlockEnd (m : Nat) : Bool := m == kHeapNestedBlockEndMarker

/-- Builds a block-end marker. -/
def buildBlockEnd (nested : Bool) : Nat :=
  if nested then kHeapNestedBlockEndMarker else kHeapBlockEndMarker

/-- An active left-redzone byte: a block start or heap left padding. This is
what `MarkAsFreed` preserves so that nested-block structure survives. -/
def isActiveLeftRedzone (m : Nat) : Bool := isActiveBlockStart m || m == kHeapLeftPaddingMarker

/-- An active right-redzone byte: a block end or heap right padding. -/
def isActiveRightRedzone (m : Nat) : Bool := isBlockEnd m || m == kHeapRightPaddingMarker

/-- Any non-addressable marker: everything above the partial forms. -/
def isRedzone (m : Nat) : Bool := kHeapPartiallyAddressableByte7 < m

/-! ## The shadow array and its primitive updates -/

/-- The shadow byte array, as a total map from shadow index to byte value. -/
abbrev ShadowMem := Nat → Nat

/-- A single byte store `shadow_[i] = v`. -/
def updateByte (sh : ShadowMem) (i v : Nat) : ShadowMem :=
  fun j => if j = i then v else sh j

/-- `::memset(shadow_ + i, v, n)`, denotationally. -/
def memset (sh : ShadowMem) (i n v : Nat) : ShadowMem :=
  fun j => if i ≤ j ∧ j < i + n then v else sh j

/-- `Shadow::Poison` (shadow.cc:52). If the start address is not
granule-aligned the first shadow byte of the range is set to the partial
form `addr mod 8`; then `size >> 3` bytes are stamped with the marker.
The `DCHECK` requires `(addr + size)` to be granule-aligned. -/
def Poison (sh : ShadowMem) (addr size marker : Nat) : ShadowMem :=
  let start := addr % 8
  let index := addr / 8
  let sh1 := if start ≠ 0 then updateByte sh index start else sh
  let index1 := if start ≠ 0 then index + 1 else index
  memset sh1 index1 (size / 8) marker

/-- `Shadow::Unpoison` (shadow.cc:66). The `DCHECK` requires `addr` to be
granule-aligned; a trailing partial granule gets the partial form. -/
def Unpoison (sh : ShadowMem) (addr size : Nat) : ShadowMem :=
  let remainder := size % 8
  let index := addr / 8
  let size8 := size / 8
  let sh1 := memset sh index size8 kHeapAddressableMarker
  if remainder ≠ 0 then updateByte sh1 (index + size8) remainder else sh1

/-- `Shadow::GetShadowMarkerForAddress` (shadow.cc:230). -/
def GetShadowMarkerForAddress (sh : ShadowMem) (addr : Nat) : Nat :=
  sh (addr / 8)

/-- `Shadow::IsAccessible` (shadow.cc:165). -/
def IsAccessible (sh : ShadowMem) (addr : Nat) : Bool :=
  let start := addr % 8
  let shadow := sh (addr / 8)
  if shadow = 0 then true
  else if isRedzone shadow then false
  else decide (start < shadow)

/-- `Shadow::IsLeftRedzone` (shadow.cc:182). -/
def IsLeftRedzone (sh : ShadowMem) (addr : Nat) : Bool :=
  isActiveLeftRedzone (GetShadowMarkerForAddress sh addr)

/-- `Shadow::IsRightRedzone` (shadow.cc:187). An accessible-memory marker may
still be part of a right redzone when the next shadow byte is one. -/
def IsRightRedzone (sh : ShadowMem) (addr : Nat) : Bool :=
  let start := addr % 8
  let index := addr / 8
  let marker := sh index
  if marker = 0 then false
  else if marker ≤ kHeapPartiallyAddressableByte7 then
    if index = kShadowSize then false
    else if ¬ isActiveRightRedzone (sh (index + 1)) then false
    else decide (start ≥ marker)
  else isActiveRightRedzone marker

/-- `Shadow::IsBlockStartByte` (shadow.cc:213). -/
def IsBlockStartByte (sh : ShadowMem) (addr : Nat) : Bool :=
  let start := addr % 8
  let marker := sh (addr / 8)
  if start ≠ 0 then false
  else if ¬ isActiveBlockStart marker then false
  else true

/-! ## MarkAsFreed (shadow.cc:100-163) -/

/-- One byte of `MarkAsFreedImpl8`: active left- and right-redzone bytes are
preserved, anything else becomes `kHeapFreedMarker`. -/
def markAsFreedByte (m : Nat) : Nat :=
  if isActiveLeftRedzone m || isActiveRightRedzone m then m else kHeapFreedMarker

/-- `MarkAsFreedImpl8` (shadow.cc:100): byte-wise loop over `[b, e)`,
denotationally. -/
def MarkAsFreedImpl8 (sh : ShadowMem) (b e : Nat) : ShadowMem :=
  fun j => if b ≤ j ∧ j < e then markAsFreedByte (sh j) else sh j

/-- Whether the 8 shadow bytes starting at `b` are all equal to `v`
(a `uint64` compare against a replicated byte pattern). -/
def chunkAll (sh : ShadowMem) (b n v : Nat) : Bool :=
  decide (∀ i, i < n → sh (b + i) = v)

/-- `MarkAsFreedImplAligned64` (shadow.cc:116): walks 8-byte chunks; an
all-green (zero) chunk is overwritten with the freed pattern wholesale,
anything else is handled byte by byte. `chunks` is the number of 8-byte
blocks between the two cursors. -/
def MarkAsFreedImplAligned64 (sh : ShadowMem) (b : Nat) : Nat → ShadowMem
  | 0 => sh
  | n + 1 =>
    let sh1 := if chunkAll sh b 8 0 then memset sh b 8 kHeapFreedMarker
               else MarkAsFreedImpl8 sh b (b + 8)
    MarkAsFreedImplAligned64 sh1 (b + 8) n

/-- `MarkAsFreedImpl64` (shadow.cc:132). The shadow array base is taken to
be 8-byte aligned, so cursor alignment coincides with index alignment. -/
def MarkAsFreedImpl64 (sh : ShadowMem) (b e : Nat) : ShadowMem :=
  if 2 * 8 ≤ e - b then
    let ba := ((b + 7) / 8) * 8
    let ea := (e / 8) * 8
    let sh1 := MarkAsFreedImpl8 sh b ba
    let sh2 := MarkAsFreedImplAligned64 sh1 ba ((ea - ba) / 8)
    MarkAsFreedImpl8 sh2 ea e
  else
    MarkAsFreedImpl8 sh b e

/-- `Shadow::MarkAsFreed` (shadow.cc:148). `addr` is granule-aligned per
`DCHECK`; the covered shadow range is `ceil(size / 8)` bytes long. -/
def MarkAsFreed (sh : ShadowMem) (addr size : Nat) : ShadowMem :=
  let index := addr / kShadowRatio
  let length := (size + kShadowRatio - 1) / kShadowRatio
  MarkAsFreedImpl64 sh index (index + length)

/-! ## PoisonAllocatedBlock (shadow.cc:238) -/

/-- The fields of `BlockInfo` that `Shadow::PoisonAllocatedBlock` reads.
`block`, `body` are addresses; `is_nested` mirrors `header->is_nested`. -/
structure BlockInfo where
  block : Nat
  block_size : Nat
  body : Nat
  body_size : Nat
  is_nested : Bool
deriving DecidableEq, Repr

/-- `CompactBlockInfo` (as filled in by `BlockInfoFromShadowImpl`). -/
structure CompactBlockInfo where
  block : Nat
  block_size : Nat
  header_size : Nat
  trailer_size : Nat
  is_nested : Bool
deriving DecidableEq, Repr

/-- `Shadow::PoisonAllocatedBlock` (shadow.cc:238): stamps one block-start
byte, the left padding, the body (with a trailing partial form when
`body_size mod 8` is nonzero), the right padding and one block-end byte. -/
def PoisonAllocatedBlock (sh : ShadowMem) (info : BlockInfo) : ShadowMem :=
  let index := info.block / kShadowRatio
  let left_redzone_bytes := (info.body - info.block) / kShadowRatio
  let body_bytes := (info.body_size + kShadowRatio - 1) / kShadowRatio
  let block_bytes := info.block_size / kShadowRatio
  let right_redzone_bytes := block_bytes - left_redzone_bytes - body_bytes
  let body_size_mod := info.body_size % kShadowRatio
  let header_marker := buildBlockStart info.is_nested body_size_mod
  let trailer_marker := buildBlockEnd info.is_nested
  let sh1 := updateByte sh index header_marker
  let sh2 := memset sh1 (index + 1) (left_redzone_bytes - 1) kHeapLeftPaddingMarker
  let cursor1 := index + left_redzone_bytes
  let sh3 := memset sh2 cursor1 body_bytes kHeapAddressableMarker
  let cursor2 := cursor1 + body_bytes
  let sh4 := if 0 < body_size_mod then updateByte sh3 (cursor2 - 1) body_size_mod else sh3
  let sh5 := memset sh4 cursor2 (right_redzone_bytes - 1) kHeapRightPaddingMarker
  updateByte sh5 (cursor2 + right_redzone_bytes - 1) trailer_marker

/-- `Shadow::IsBeginningOfBlockBody` (shadow.cc:319). -/
def IsBeginningOfBlockBody (sh : ShadowMem) (addr : Nat) : Bool :=
  if IsAccessible sh addr || IsRightRedzone sh addr
      || (GetShadowMarkerForAddress sh addr == kHeapFreedMarker) then
    IsLeftRedzone sh (addr - 1)
  else
    false

/-! ## The left and right bracketing scans (shadow.cc:499-659) -/

/-- `kLowerBound` local to `ScanLeftForBracketingBlockStart`:
`kAddressLowerBound / kShadowRatio`. -/
def kLowerBound : Nat := kAddressLowerBound / kShadowRatio

/-- The `while (true)` loop of `Shadow::ScanLeftForBracketingBlockStart`
(shadow.cc:509-533), after the initial depth adjustment. -/
def ScanLeftLoop (sh : ShadowMem) (left : Nat) (depth : Int) : Option Nat :=
  if isBlockStart (sh left) ∧ depth = 0 then some left
  else if isBlockStart (sh left) ∧ ¬ isNestedBlockStart (sh left) then none
  else if isBlockEnd (sh left) ∧ 0 < depth + 1 ∧ ¬ isNestedBlockEnd (sh left) then none
  else if left ≤ kLowerBound then none
  else
    ScanLeftLoop sh (left - 1)
      (if isBlockStart (sh left) then depth - 1
       else if isBlockEnd (sh left) then depth + 1
       else depth)
termination_by left
decreasing_by
  simp only [kLowerBound, kAddressLowerBound, kShadowRatio] at *
  omega

/-- `Shadow::ScanLeftForBracketingBlockStart` (shadow.cc:499). -/
def ScanLeftForBracketingBlockStart (sh : ShadowMem) (initialDepth : Nat)
    (cursor : Nat) : Option Nat :=
  ScanLeftLoop sh cursor
    (if isBlockEnd (sh cursor) then (initialDepth : Int) - 1 else (initialDepth : Int))

/-- The chunk checks of `ScanRightForPotentialHeaderBytes`: a `uintN` load
equals 0 (resp. the replicated freed pattern) iff each of its bytes does. -/
def chunkSkippable (sh : ShadowMem) (b n : Nat) : Bool :=
  chunkAll sh b n 0 || chunkAll sh b n kHeapFreedMarker

/-- The trailing 8-byte-aligned loop of `ScanRightForPotentialHeaderBytes`
(shadow.cc:606-612). -/
def srTail (sh : ShadowMem) (pos endp : Nat) : Nat :=
  if pos < endp then
    if chunkSkippable sh pos 8 then srTail sh (pos + 8) endp else pos
  else pos
termination_by endp - pos
decreasing_by omega

/-- `ScanRightForPotentialHeaderBytes` (shadow.cc:543): skips addressable
and freed shadow bytes, chunk-wise. The `switch` fallthroughs of the source
are expanded into one branch per starting alignment. -/
def ScanRightForPotentialHeaderBytes (sh : ShadowMem) (pos endp : Nat) : Nat :=
  if pos % 8 = 1 then
    if ¬ chunkSkippable sh pos 1 then pos
    else if ¬ chunkSkippable sh (pos + 1) 2 then pos + 1
    else if ¬ chunkSkippable sh (pos + 3) 4 then pos + 3
    else srTail sh (pos + 7) endp
  else if pos % 8 = 2 then
    if ¬ chunkSkippable sh pos 2 then pos
    else if ¬ chunkSkippable sh (pos + 2) 4 then pos + 2
    else srTail sh (pos + 6) endp
  else if pos % 8 = 3 then
    if ¬ chunkSkippable sh pos 1 then pos
    else if ¬ chunkSkippable sh (pos + 1) 4 then pos + 1
    else srTail sh (pos + 5) endp
  else if pos % 8 = 4 then
    if ¬ chunkSkippable sh pos 4 then pos
    else srTail sh (pos + 4) endp
  else if pos % 8 = 5 then
    if ¬ chunkSkippable sh pos 1 then pos
    else if ¬ chunkSkippable sh (pos + 1) 2 then pos + 1
    else srTail sh (pos + 3) endp
  else if pos % 8 = 6 then
    if ¬ chunkSkippable sh pos 2 then pos
    else srTail sh (pos + 2) endp
  else if pos % 8 = 7 then
    if ¬ chunkSkippable sh pos 1 then pos
    else srTail sh (pos + 1) endp
  else
    srTail sh pos endp

/-- The trailing aligned loop never moves the cursor backwards. -/
theorem srTail_ge (sh : ShadowMem) (endp pos : Nat) : pos ≤ srTail sh pos endp := by
  by_cases h : pos < endp
  · rw [srTail]
    by_cases hc : chunkSkippable sh pos 8
    · have ih := srTail_ge sh endp (pos + 8)
      simp only [h, if_true, hc]
      omega
    · simp [h, hc]
  · rw [srTail]
    simp [h]
termination_by endp - pos
decreasing_by omega

/-- The header-byte skip never moves the cursor backwards. -/
theorem ScanRightForPotentialHeaderBytes_ge (sh : ShadowMem) (pos endp : Nat) :
    pos ≤ ScanRightForPotentialHeaderBytes sh pos endp := by
  have t1 := srTail_ge sh endp (pos + 1)
  have t2 := srTail_ge sh endp (pos + 2)
  have t3 := srTail_ge sh endp (pos + 3)
  have t4 := srTail_ge sh endp (pos + 4)
  have t5 := srTail_ge sh endp (pos + 5)
  have t6 := srTail_ge sh endp (pos + 6)
  have t7 := srTail_ge sh endp (pos + 7)
  have t0 := srTail_ge sh endp pos
  unfold ScanRightForPotentialHeaderBytes
  split_ifs <;> omega

/-- The outer `while (pos < kShadowEnd)` loop of
`Shadow::ScanRightForBracketingBlockEnd` (shadow.cc:628-657). -/
def ScanRightLoop (sh : ShadowMem) (pos : Nat) (depth : Int) : Option Nat :=
  if hlt : pos < kShadowSize then
    let pos2 := ScanRightForPotentialHeaderBytes sh pos kShadowSize
    if pos2 = kShadowSize then none
    else if isBlockEnd (sh pos2) then
      if depth = 0 then some pos2
      else if ¬ isNestedBlockEnd (sh pos2) then none
      else ScanRightLoop sh (pos2 + 1) (depth - 1)
    else if isBlockStart (sh pos2) then
      if 0 < depth + 1 ∧ ¬ isNestedBlockStart (sh pos2) then none
      else ScanRightLoop sh (pos2 + 1) (depth + 1)
    else ScanRightLoop sh (pos2 + 1) depth
  else none
termination_by kShadowSize - pos
decreasing_by
  all_goals
    have hge := ScanRightForPotentialHeaderBytes_ge sh pos kShadowSize
    omega

/-- `Shadow::ScanRightForBracketingBlockEnd` (shadow.cc:619). -/
def ScanRightForBracketingBlockEnd (sh : ShadowMem) (initialDepth : Nat)
    (cursor : Nat) : Option Nat :=
  ScanRightLoop sh cursor
    (if isBlockStart (sh cursor) then (initialDepth : Int) - 1 else (initialDepth : Int))

/-- The left-padding skip of `BlockInfoFromShadowImpl` (shadow.cc:684-686). -/
def skipLeftPad (sh : ShadowMem) (left right : Nat) : Nat :=
  if left < right ∧ sh left = kHeapLeftPaddingMarker then
    skipLeftPad sh (left + 1) right
  else left
termination_by right - left
decreasing_by omega

/-- The right-padding skip of `BlockInfoFromShadowImpl` (shadow.cc:689-691). -/
def skipRightPad (sh : ShadowMem) (left right : Nat) : Nat :=
  if left < right ∧ sh (right - 1) = kHeapRightPaddingMarker then
    skipRightPad sh left (right - 1)
  else right
termination_by right - left
decreasing_by omega

/-- `Shadow::BlockInfoFromShadowImpl` (shadow.cc:661). Returns `none` where
the source returns false. Note: for a malformed shadow in which the
recovered body is empty but the block start carries nonzero length data,
the source's `size_t` subtraction would wrap where truncated subtraction
clamps; the source `DCHECK`s that case away (shadow.cc:697). -/
def BlockInfoFromShadowImpl (sh : ShadowMem) (initialDepth : Nat) (addr : Nat) :
    Option CompactBlockInfo :=
  let cursor := addr / kShadowRatio
  match ScanLeftForBracketingBlockStart sh initialDepth cursor with
  | none => none
  | some left =>
    match ScanRightForBracketingBlockEnd sh initialDepth cursor with
    | none => none
    | some rightEnd =>
      let right := rightEnd + 1
      let block := left * kShadowRatio
      let block_size := (right - left) * kShadowRatio
      let body_size_mod := getBlockStartData (sh left)
      let nested := isNestedBlockStart (sh left)
      let bodyStart := skipLeftPad sh (left + 1) right
      let bodyEnd := skipRightPad sh bodyStart (right - 1)
      let body := bodyStart * kShadowRatio
      let body_size0 := (bodyEnd - bodyStart) * kShadowRatio
      let body_size := if 0 < body_size_mod
                       then body_size0 - kShadowRatio + body_size_mod
                       else body_size0
      let header_size := body - block
      some { block := block, block_size := block_size, header_size := header_size,
             trailer_size := block_size - body_size - header_size, is_nested := nested }

/-- `Shadow::BlockInfoFromShadow` (shadow.cc:289): the public entry point,
which runs the implementation at initial nesting depth 0. -/
def BlockInfoFromShadow (sh : ShadowMem) (addr : Nat) : Option CompactBlockInfo :=
  BlockInfoFromShadowImpl sh 0 addr

/-! ## Shadow::SetUp (shadow.cc:29) -/

/-- `Shadow::SetUp` (shadow.cc:29): poisons the shadow array's own memory,
the first 64 KiB of the address space, and the page-bits array. The base
addresses of the two global arrays are passed explicitly. -/
def SetUp (sh : ShadowMem) (shadowBase pageBitsBase : Nat) : ShadowMem :=
  let sh1 := Poison sh shadowBase kShadowSize kAsanMemoryMarker
  let sh2 := Poison sh1 0 kAddressLowerBound kInvalidAddressMarker
  Poison sh2 pageBitsBase kPageBitsSize kAsanMemoryMarker

/-! ## Block layout (modelled)

Modelled from the spec: `BlockPlanLayout` and `BlockInitialize` live in
`block.cc`, which is not under the sources here. Per the spec (sections 3
and 4.2): the header records a magic, state, body size, nested flag, stack
reference and checksum; `header_size + header_padding == body_offset`, a
multiple of the alignment; the trailer records two thread ids, a tick
count and a stack reference and occupies the last granule; the total block
size is a multiple of the granule and aligned to the requested alignment. -/

/-- Modelled from the spec: fixed size of the block header. -/
def kBlockHeaderSize : Nat := 16

/-- Modelled from the spec: fixed size of the block trailer. -/
def kBlockTrailerSize : Nat := 16

/-- `x` rounded up to a multiple of `a`. -/
def alignUp (x a : Nat) : Nat := ((x + a - 1) / a) * a

/-- Modelled from the spec: `BlockPlanLayout` with zero redzone minima, as
exercised by the unit tests. Returns `(body_offset, block_size)`: the body
starts at the first alignment boundary past the header, and the block is
padded out to the alignment past the trailer. -/
def BlockPlanLayout (alignment body_size : Nat) : Nat × Nat :=
  let body_offset := alignUp kBlockHeaderSize alignment
  let block_size := alignUp (body_offset + body_size + kBlockTrailerSize) alignment
  (body_offset, block_size)

/-- Modelled from the spec: `BlockInitialize` writes the header at the block
base and yields the `BlockInfo` describing the planned layout. -/
def BlockInitialize (alignment body_size blockBase : Nat) (nested : Bool) : BlockInfo :=
  let p := BlockPlanLayout alignment body_size
  { block := blockBase, block_size := p.2, body := blockBase + p.1,
    body_size := body_size, is_nested := nested }

/-! ## Quarantine (modelled)

Modelled from the spec: `quarantines/sharded_quarantine.h` and
`block_heap_manager.cc` (`TrimQuarantine`) are not under the sources here.
Per the spec (section 4.4) the quarantine is a bounded FIFO: `Push` always
accepts an entry, and `Shrink(max)` pops the oldest entry while the total
size exceeds `max`. An entry is represented by its total block size. -/

/-- Modelled from the spec: `Push` records the entry (at the young end). -/
def quarantinePush (q : List Nat) (e : Nat) : List Nat := q ++ [e]

/-- Modelled from the spec: `Shrink` / `TrimQuarantine` pops the oldest
entry while the total size exceeds the bound. -/
def quarantineShrink (maxSize : Nat) : List Nat → List Nat
  | [] => []
  | e :: rest =>
    if maxSize < (e :: rest).sum then quarantineShrink maxSize rest else e :: rest

/-! ## The runtime's sentinel exception and error filter
(asan_runtime.cc:78-99, 751-766, 800-927) -/

/-- `kAsanFacility` (asan_runtime.cc:78). -/
def kAsanFacility : Nat := 0x68B

/-- `kAsanStatus` (asan_runtime.cc:79). -/
def kAsanStatus : Nat := 0x5AD0

/-- `kAsanException` (asan_runtime.cc:80): severity = error, customer bit,
facility and status fields. -/
def kAsanException : Nat :=
  (3 <<< 30) ||| (1 <<< 29) ||| (kAsanFacility <<< 16) ||| kAsanStatus

/-- The fields of an `EXCEPTION_RECORD` the filter manipulates.
`information` models the `ExceptionInformation` array. -/
structure ExceptionRecord where
  code : Nat
  flags : Nat
  numberParameters : Nat
  information : Nat → Nat

/-- The sentinel-unwrapping step of `AsanRuntime::ExceptionFilterImpl`
(asan_runtime.cc:824-836): rebuilds the record from the original
exception's code, flags and arguments stored in the sentinel's payload.
`mem` dereferences the pointer stored in `information 3`. -/
def rebuildOriginalException (r : ExceptionRecord) (mem : Nat → Nat) : ExceptionRecord :=
  { code := r.information 0,
    flags := r.information 1,
    numberParameters := r.information 2,
    information := fun i => if i < r.information 2 then mem (r.information 3 + i)
                            else r.information i }

/-- The filter's dispatch on the exception code (asan_runtime.cc:824):
a sentinel-coded exception is unwrapped instead of being processed as a
new error (`none` means the record is handled by the regular path). -/
def exceptionFilterUnwrap (r : ExceptionRecord) (mem : Nat → Nat) :
    Option ExceptionRecord :=
  if r.code = kAsanException then some (rebuildOriginalException r mem) else none

/-! ## Bad-access classification (asan_runtime.cc:751) -/

/-- The three-way branch of `AsanRuntime::GetBadAccessInformation`. The
last constructor stands for the delegation to
`ErrorInfoGetBadAccessInformation`. -/
inductive BadAccessClass where
  | WILD_ACCESS
  | INVALID_ADDRESS
  | delegated
deriving DecidableEq, Repr

/-- `AsanRuntime::GetBadAccessInformation` (asan_runtime.cc:751): wild when
bit 31 of the address is set or the marker is the ASan-memory marker;
invalid-address when the marker is the invalid-address marker. -/
def GetBadAccessClassification (sh : ShadowMem) (location : Nat) : BadAccessClass :=
  if Nat.testBit location 31
      || (GetShadowMarkerForAddress sh location == kAsanMemoryMarker) then
    BadAccessClass.WILD_ACCESS
  else if GetShadowMarkerForAddress sh location == kInvalidAddressMarker then
    BadAccessClass.INVALID_ADDRESS
  else
    BadAccessClass.delegated

/-! ## MaxSafeAllocaSize (asan_runtime.cc:328) -/

/-- `MaxSafeAllocaSize` (asan_runtime.cc:328). `queryOk` models the
`VirtualQuery` result; `stack` is the current stack position and
`allocationBase` the stack's allocation base. -/
def MaxSafeAllocaSize (queryOk : Bool) (stack allocationBase : Nat) : Nat :=
  let kReservedStack := 5 * 1024
  if queryOk then
    let max_size := stack - allocationBase
    max_size - min max_size kReservedStack
  else 0

/-! ## Pointwise reading of the shadow updates -/

theorem updateByte_apply (sh : ShadowMem) (i v j : Nat) :
    updateByte sh i v j = if j = i then v else sh j := rfl

theorem memset_apply (sh : ShadowMem) (i n v j : Nat) :
    memset sh i n v j = if i ≤ j ∧ j < i + n then v else sh j := rfl

/-- What `Poison` writes, byte by byte: the partial form at the head
granule when `addr` is unaligned, then `size / 8` marker bytes. -/
theorem Poison_apply (sh : ShadowMem) (addr size marker j : Nat) :
    Poison sh addr size marker j =
      if addr % 8 = 0 then
        if addr / 8 ≤ j ∧ j < addr / 8 + size / 8 then marker else sh j
      else
        if addr / 8 + 1 ≤ j ∧ j < addr / 8 + 1 + size / 8 then marker
        else if j = addr / 8 then addr % 8
        else sh j := by
  by_cases hm : addr % 8 = 0
  · rw [if_pos hm]
    simp only [Poison, hm, ne_eq, not_true_eq_false, if_false, ite_false, memset_apply]
  · rw [if_neg hm]
    simp only [Poison, ne_eq, hm, not_false_eq_true, if_true, ite_true,
      memset_apply, updateByte_apply]

/-- What `Unpoison` writes, byte by byte: `size / 8` zero bytes, then the
partial form `size mod 8` when that is nonzero. -/
theorem Unpoison_apply (sh : ShadowMem) (addr size j : Nat) :
    Unpoison sh addr size j =
      if size % 8 ≠ 0 ∧ j = addr / 8 + size / 8 then size % 8
      else if addr / 8 ≤ j ∧ j < addr / 8 + size / 8 then 0
      else sh j := by
  by_cases hr : size % 8 = 0
  · simp only [Unpoison, hr, ne_eq, not_true_eq_false, if_false, ite_false,
      memset_apply, kHeapAddressableMarker, false_and]
  · simp only [Unpoison, ne_eq, hr, not_false_eq_true, if_true, ite_true,
      memset_apply, updateByte_apply, kHeapAddressableMarker, true_and]

/-! ## Claims C2 and C3 -/

/-- Claim C2, amended: `Poison` requires only `(addr + size)` to be
granule-aligned; when `addr` is not granule-aligned the FIRST shadow byte
of the range is set to the partial form `addr mod 8` (a value 1..7), and
`size / 8` shadow bytes after it are stamped with the marker; shadow bytes
outside the covered range are unchanged. -/
theorem C2_poison_amended (sh : ShadowMem) (addr size marker : Nat)
    (hend : (addr + size) % 8 = 0) :
    (addr % 8 ≠ 0 →
      Poison sh addr size marker (addr / 8) = addr % 8 ∧
      1 ≤ addr % 8 ∧ addr % 8 ≤ 7) ∧
    (addr % 8 = 0 → ∀ i, addr / 8 ≤ i → i < addr / 8 + size / 8 →
      Poison sh addr size marker i = marker) ∧
    (addr % 8 ≠ 0 → ∀ i, addr / 8 + 1 ≤ i → i < addr / 8 + 1 + size / 8 →
      Poison sh addr size marker i = marker) ∧
    (∀ i, i < addr / 8 → Poison sh addr size marker i = sh i) ∧
    (addr % 8 = 0 → ∀ i, addr / 8 + size / 8 ≤ i → Poison sh addr size marker i = sh i) ∧
    (addr % 8 ≠ 0 → ∀ i, addr / 8 + 1 + size / 8 ≤ i →
      Poison sh addr size marker i = sh i) := by
  refine ⟨?_, ?_, ?_, ?_, ?_, ?_⟩
  · intro h
    refine ⟨?_, by omega, by omega⟩
    rw [Poison_apply, if_neg h]
    split_ifs <;> omega
  · intro h i h1 h2
    rw [Poison_apply, if_pos h]
    split_ifs <;> omega
  · intro h i h1 h2
    rw [Poison_apply, if_neg h]
    split_ifs <;> omega
  · intro i h1
    rw [Poison_apply]
    split_ifs <;> omega
  · intro h i h1
    rw [Poison_apply, if_pos h]
    split_ifs <;> omega
  · intro h i h1
    rw [Poison_apply, if_neg h]
    split_ifs <;> omega

/-- Claim C2 as stated is false: poisoning `[4, 16)` (so `addr + size` is
granule-aligned but `addr` is not) leaves the code's own precondition
satisfied while `addr` is unaligned, sets the FIRST shadow byte of the
range to the partial form, and sets the LAST shadow byte of the range to
the marker, not to a partial form in 1..7. -/
theorem C2_counterexample :
    (4 + 12) % 8 = 0 ∧
    ¬ (4 % 8 = 0) ∧
    Poison (fun _ => 0) 4 12 kHeapLeftPaddingMarker 0 = 4 ∧
    Poison (fun _ => 0) 4 12 kHeapLeftPaddingMarker 1 = kHeapLeftPaddingMarker ∧
    ¬ (1 ≤ Poison (fun _ => 0) 4 12 kHeapLeftPaddingMarker 1 ∧
        Poison (fun _ => 0) 4 12 kHeapLeftPaddingMarker 1 ≤ 7) := by
  decide

/-- Witness for `C2_poison_amended` at a concrete input. -/
theorem C2_witness :
    Poison (fun _ => 0) 4 12 kHeapLeftPaddingMarker 1 = kHeapLeftPaddingMarker :=
  (C2_poison_amended (fun _ => 0) 4 12 kHeapLeftPaddingMarker (by decide)).2.2.1
    (by decide) 1 (by decide) (by decide)

/-- Claim C3: after `Unpoison(addr, size)` with `addr` 8-aligned, every
address in `[addr, addr + size)` is accessible; when `size mod 8 = k` is
nonzero the final shadow byte of the range holds the partial marker `k`,
and a byte of that granule is accessible iff its in-granule offset is
strictly less than `k`. -/
theorem C3_unpoison_accessible (sh : ShadowMem) (addr size : Nat) (h : addr % 8 = 0) :
    (∀ p, addr ≤ p → p < addr + size → IsAccessible (Unpoison sh addr size) p = true) ∧
    (size % 8 ≠ 0 →
      Unpoison sh addr size (addr / 8 + size / 8) = size % 8 ∧
      (∀ o, o < 8 →
        (IsAccessible (Unpoison sh addr size) (addr + 8 * (size / 8) + o) = true ↔
          o < size % 8))) := by
  constructor
  · intro p hp1 hp2
    by_cases hcase : p / 8 < addr / 8 + size / 8
    · have hbyte : Unpoison sh addr size (p / 8) = 0 := by
        rw [Unpoison_apply]
        split_ifs <;> omega
      simp [IsAccessible, hbyte]
    · have hrem : size % 8 ≠ 0 := by omega
      have hofs : p % 8 < size % 8 := by omega
      have hbyte : Unpoison sh addr size (p / 8) = size % 8 := by
        rw [Unpoison_apply]
        split_ifs <;> omega
      simp only [IsAccessible, hbyte]
      rw [if_neg hrem, if_neg ?redzone]
      case redzone =>
        simp only [isRedzone, kHeapPartiallyAddressableByte7, Bool.not_eq_true,
          decide_eq_false_iff_not]
        omega
      simpa using hofs
  · intro hrem
    have hbyte : Unpoison sh addr size (addr / 8 + size / 8) = size % 8 := by
      rw [Unpoison_apply]
      split_ifs <;> omega
    refine ⟨hbyte, ?_⟩
    intro o ho
    have hdiv : (addr + 8 * (size / 8) + o) / 8 = addr / 8 + size / 8 := by omega
    have hmod : (addr + 8 * (size / 8) + o) % 8 = o := by omega
    simp only [IsAccessible, hdiv, hmod, hbyte]
    rw [if_neg hrem, if_neg ?redzone2]
    case redzone2 =>
      simp only [isRedzone, kHeapPartiallyAddressableByte7, Bool.not_eq_true,
        decide_eq_false_iff_not]
      omega
    simp

/-- Witness for `C3_unpoison_accessible` at a concrete input: the last
byte of an 11-byte unpoisoned range is accessible. -/
theorem C3_witness : IsAccessible (Unpoison (fun _ => 0xF6) 16 11) 26 = true :=
  (C3_unpoison_accessible (fun _ => 0xF6) 16 11 (by decide)).1 26 (by decide) (by decide)

/-! ## Claim C4: MarkAsFreed -/

theorem MarkAsFreedImpl8_apply (sh : ShadowMem) (b e j : Nat) :
    MarkAsFreedImpl8 sh b e j =
      if b ≤ j ∧ j < e then markAsFreedByte (sh j) else sh j := rfl

/-- Two adjacent byte-wise passes fuse into one. -/
theorem MarkAsFreedImpl8_compose (sh : ShadowMem) (a b c : Nat)
    (hab : a ≤ b) (hbc : b ≤ c) :
    MarkAsFreedImpl8 (MarkAsFreedImpl8 sh a b) b c = MarkAsFreedImpl8 sh a c := by
  funext j
  simp only [MarkAsFreedImpl8]
  split_ifs <;> first | rfl | omega

/-- Overwriting an all-zero chunk with the freed pattern agrees with the
byte-wise pass, because a zero byte is not an active redzone byte. -/
theorem memset_freed_eq_impl8 (sh : ShadowMem) (b : Nat)
    (h : chunkAll sh b 8 0 = true) :
    memset sh b 8 kHeapFreedMarker = MarkAsFreedImpl8 sh b (b + 8) := by
  have hz : ∀ j, b ≤ j → j < b + 8 → sh j = 0 := by
    intro j h1 h2
    simp only [chunkAll, decide_eq_true_eq] at h
    have := h (j - b) (by omega)
    rwa [show b + (j - b) = j from by omega] at this
  funext j
  simp only [memset_apply, MarkAsFreedImpl8]
  split_ifs with hg
  · rw [hz j hg.1 hg.2]
    decide
  · rfl

/-- The chunked pass equals the byte-wise pass on its whole range. -/
theorem MarkAsFreedImplAligned64_eq (chunks : Nat) :
    ∀ (sh : ShadowMem) (b : Nat),
      MarkAsFreedImplAligned64 sh b chunks = MarkAsFreedImpl8 sh b (b + 8 * chunks) := by
  induction chunks with
  | zero =>
    intro sh b
    funext j
    simp only [MarkAsFreedImplAligned64, MarkAsFreedImpl8]
    rw [if_neg (by omega)]
  | succ n ih =>
    intro sh b
    simp only [MarkAsFreedImplAligned64]
    by_cases hc : chunkAll sh b 8 0
    · rw [if_pos hc, ih, memset_freed_eq_impl8 sh b hc,
        MarkAsFreedImpl8_compose sh b (b + 8) (b + 8 + 8 * n) (by omega) (by omega),
        show b + 8 + 8 * n = b + 8 * (n + 1) from by ring]
    · rw [if_neg hc, ih,
        MarkAsFreedImpl8_compose sh b (b + 8) (b + 8 + 8 * n) (by omega) (by omega),
        show b + 8 + 8 * n = b + 8 * (n + 1) from by ring]

/-- The accelerated 64-bit implementation equals the byte-wise pass. -/
theorem MarkAsFreedImpl64_eq (sh : ShadowMem) (b e : Nat) :
    MarkAsFreedImpl64 sh b e = MarkAsFreedImpl8 sh b e := by
  simp only [MarkAsFreedImpl64]
  split_ifs with h
  · rw [MarkAsFreedImplAligned64_eq,
      show (b + 7) / 8 * 8 + 8 * ((e / 8 * 8 - (b + 7) / 8 * 8) / 8) = e / 8 * 8
        from by omega,
      MarkAsFreedImpl8_compose sh b ((b + 7) / 8 * 8) (e / 8 * 8) (by omega) (by omega),
      MarkAsFreedImpl8_compose sh b (e / 8 * 8) e (by omega) (by omega)]
  · rfl

/-- Claim C4: `MarkAsFreed(addr, size)` sets every shadow byte covering
`[addr, addr + size)` to `HeapFreed`, except that bytes holding active
left- or right-redzone markers keep their prior value; every shadow byte
outside the covered range is unchanged. -/
theorem C4_mark_as_freed (sh : ShadowMem) (addr size : Nat) (h : addr % 8 = 0) :
    (∀ i, addr / 8 ≤ i → i < addr / 8 + (size + 7) / 8 →
      MarkAsFreed sh addr size i =
        if isActiveLeftRedzone (sh i) || isActiveRightRedzone (sh i) then sh i
        else kHeapFreedMarker) ∧
    (∀ i, i < addr / 8 ∨ addr / 8 + (size + 7) / 8 ≤ i →
      MarkAsFreed sh addr size i = sh i) := by
  have key : ∀ j, MarkAsFreed sh addr size j =
      MarkAsFreedImpl8 sh (addr / 8) (addr / 8 + (size + 7) / 8) j := by
    intro j
    simp only [MarkAsFreed, kShadowRatio, MarkAsFreedImpl64_eq,
      show size + 8 - 1 = size + 7 from by omega]
  constructor
  · intro i h1 h2
    rw [key i]
    simp only [MarkAsFreedImpl8, markAsFreedByte]
    rw [if_pos (by omega)]
  · intro i h1
    rw [key i]
    simp only [MarkAsFreedImpl8]
    rw [if_neg (by omega)]

/-- Witness for `C4_mark_as_freed` at a concrete input: a right-padding
byte inside the freed range is preserved. -/
theorem C4_witness :
    MarkAsFreed (fun _ => 0xF7) 16 20 2 =
      if isActiveLeftRedzone 0xF7 || isActiveRightRedzone 0xF7 then 0xF7
      else kHeapFreedMarker :=
  (C4_mark_as_freed (fun _ => 0xF7) 16 20 (by decide)).1 2 (by decide) (by decide)

/-! ## Claims C6, C7, C9, C10 -/

/-- A quarantine whose entries all have positive size shrinks to nothing
under a zero bound. -/
theorem quarantineShrink_zero_of_pos :
    ∀ q : List Nat, (∀ e ∈ q, 0 < e) → quarantineShrink 0 q = [] := by
  intro q
  induction q with
  | nil => intro _; rfl
  | cons e rest ih =>
    intro h
    have hsum : 0 < (e :: rest).sum := by
      have := h e (by simp)
      simp only [List.sum_cons]
      omega
    rw [quarantineShrink, if_pos hsum]
    exact ih (fun x hx => h x (by simp [hx]))

/-- Claim C6: with `quarantine_size = 0` the quarantine is disabled — after
any `Push`, trimming the quarantine (shrinking to the zero bound) evicts
every stored entry, so no freed block remains. Freed blocks always have a
positive total size. -/
theorem C6_zero_quarantine_flushes (q : List Nat) (e : Nat)
    (h : ∀ x ∈ quarantinePush q e, 0 < x) :
    quarantineShrink 0 (quarantinePush q e) = [] :=
  quarantineShrink_zero_of_pos (quarantinePush q e) h

/-- Witness for `C6_zero_quarantine_flushes` at a concrete input. -/
theorem C6_witness : quarantineShrink 0 (quarantinePush [24, 16] 8) = [] :=
  C6_zero_quarantine_flushes [24, 16] 8 (by decide)

/-- Claim C7 as stated is false: the sentinel code is not `0xC68B5AD0`
(the customer bit makes the top nibble `0xE`). -/
theorem C7_counterexample : kAsanException ≠ 0xC68B5AD0 := by decide

/-- Claim C7, amended: the sentinel exception code has severity error
(bits 31..30 = 3), the customer bit set, facility `0x68B` and status
`0x5AD0` — that is, `0xE68B5AD0` — and on receiving an exception with this
code the filter substitutes the original exception's code, flags and
arguments unwrapped from the sentinel's four-element payload. -/
theorem C7_sentinel_and_unwrap (r : ExceptionRecord) (mem : Nat → Nat)
    (h : r.code = kAsanException) :
    kAsanException = 0xE68B5AD0 ∧
    kAsanException >>> 30 = 3 ∧
    Nat.testBit kAsanException 29 = true ∧
    (kAsanException >>> 16) % 2 ^ 11 = kAsanFacility ∧
    kAsanException % 2 ^ 16 = kAsanStatus ∧
    exceptionFilterUnwrap r mem = some (rebuildOriginalException r mem) ∧
    (rebuildOriginalException r mem).code = r.information 0 ∧
    (rebuildOriginalException r mem).flags = r.information 1 ∧
    (rebuildOriginalException r mem).numberParameters = r.information 2 ∧
    (∀ i, i < r.information 2 →
      (rebuildOriginalException r mem).information i = mem (r.information 3 + i)) := by
  refine ⟨by decide, by decide, by decide, by decide, by decide, ?_, rfl, rfl, rfl, ?_⟩
  · simp [exceptionFilterUnwrap, h]
  · intro i hi
    simp [rebuildOriginalException, hi]

/-- Witness for `C7_sentinel_and_unwrap` at a concrete input. -/
theorem C7_witness :
    exceptionFilterUnwrap ⟨kAsanException, 0, 4, fun i => i⟩ (fun a => a + 100) =
      some (rebuildOriginalException ⟨kAsanException, 0, 4, fun i => i⟩ (fun a => a + 100)) :=
  (C7_sentinel_and_unwrap ⟨kAsanException, 0, 4, fun i => i⟩ (fun a => a + 100)
    rfl).2.2.2.2.2.1

/-- Claim C9: `MaxSafeAllocaSize` always leaves at least `5 * 1024` bytes
of stack for the crash reporter: it returns at most the distance from the
stack position to the allocation base minus the reserve, and returns 0
when that distance does not exceed the reserve or when the query fails. -/
theorem C9_max_safe_alloca (queryOk : Bool) (stack allocationBase : Nat) :
    MaxSafeAllocaSize queryOk stack allocationBase ≤ (stack - allocationBase) - 5 * 1024 ∧
    (queryOk = false → MaxSafeAllocaSize queryOk stack allocationBase = 0) ∧
    (stack - allocationBase ≤ 5 * 1024 →
      MaxSafeAllocaSize queryOk stack allocationBase = 0) := by
  simp only [MaxSafeAllocaSize]
  cases queryOk <;> simp <;> omega

/-- Witness for `C9_max_safe_alloca` at a concrete input. -/
theorem C9_witness : MaxSafeAllocaSize true 4096 0 = 0 :=
  (C9_max_safe_alloca true 4096 0).2.2 (by decide)

/-- Claim C10: `IsRightRedzone` on an address below the 2 GiB bound:
false for a fully addressable granule; for a partial marker `k` in 1..7
it is true iff the next shadow byte is an active right redzone and the
in-granule offset is at least `k`; for any other marker it is true iff
that marker itself is an active right redzone. -/
theorem C10_is_right_redzone (sh : ShadowMem) (addr : Nat)
    (h : addr < kAddressUpperBound) :
    (sh (addr / 8) = 0 → IsRightRedzone sh addr = false) ∧
    (1 ≤ sh (addr / 8) → sh (addr / 8) ≤ 7 →
      (IsRightRedzone sh addr = true ↔
        (isActiveRightRedzone (sh (addr / 8 + 1)) = true ∧ sh (addr / 8) ≤ addr % 8))) ∧
    (7 < sh (addr / 8) →
      (IsRightRedzone sh addr = true ↔ isActiveRightRedzone (sh (addr / 8)) = true)) := by
  have hidx : addr / 8 ≠ kShadowSize := by
    simp only [kShadowSize, kAddressUpperBound, kShadowRatio] at *
    omega
  refine ⟨?_, ?_, ?_⟩
  · intro h0
    simp [IsRightRedzone, h0]
  · intro h1 h2
    simp only [IsRightRedzone, kHeapPartiallyAddressableByte7]
    rw [if_neg (by omega), if_pos (by omega), if_neg hidx]
    by_cases hr : isActiveRightRedzone (sh (addr / 8 + 1)) = true
    · rw [if_neg (by simp [hr])]
      simp only [hr, true_and, ge_iff_le, decide_eq_true_eq]
    · rw [if_pos (by simp [hr])]
      simp [hr]
  · intro h7
    simp only [IsRightRedzone]
    rw [if_neg (by omega), if_neg (by simp only [kHeapPartiallyAddressableByte7]; omega)]

/-- Witness for `C10_is_right_redzone` at a concrete input: marker 3 with a
right-padding byte in the next granule, at in-granule offset 1. -/
theorem C10_witness :
    IsRightRedzone (fun _ => 3) 17 = true ↔
      (isActiveRightRedzone ((fun (_ : Nat) => 3) (17 / 8 + 1)) = true ∧
        (fun (_ : Nat) => 3) (17 / 8) ≤ 17 % 8) :=
  (C10_is_right_redzone (fun _ => 3) 17 (by decide)).2.1 (by decide) (by decide)

/-! ## Claim C8: bad-access classification -/

/-- Shadow bytes strictly below the written range are untouched by `Poison`. -/
theorem Poison_outside (sh : ShadowMem) (addr size marker j : Nat)
    (h1 : j < addr / 8) : Poison sh addr size marker j = sh j := by
  rw [Poison_apply]
  split_ifs <;> omega

/-- Claim C8: for a faulting address below `2^32`, the classification is
`WILD_ACCESS` exactly when bit 31 of the address is set (at or above the
2 GiB bound) or its marker is the ASan-memory marker, and
`INVALID_ADDRESS` exactly when its marker is the invalid-address marker
and the wild conditions do not apply; and `SetUp` stamps the
invalid-address marker over the first 64 KiB of the address space. -/
theorem C8_bad_access_classification :
    (∀ (sh : ShadowMem) (loc : Nat), loc < 2 ^ 32 →
      ((GetBadAccessClassification sh loc = BadAccessClass.WILD_ACCESS ↔
          (2 ^ 31 ≤ loc ∨ GetShadowMarkerForAddress sh loc = kAsanMemoryMarker)) ∧
       (GetBadAccessClassification sh loc = BadAccessClass.INVALID_ADDRESS ↔
          (GetShadowMarkerForAddress sh loc = kInvalidAddressMarker ∧ loc < 2 ^ 31)))) ∧
    (∀ (sh : ShadowMem) (shadowBase pageBitsBase : Nat),
      kAddressLowerBound ≤ shadowBase → kAddressLowerBound ≤ pageBitsBase →
      ∀ a, a < kAddressLowerBound →
        GetShadowMarkerForAddress (SetUp sh shadowBase pageBitsBase) a =
          kInvalidAddressMarker) := by
  constructor
  · intro sh loc hloc
    have htb : Nat.testBit loc 31 = true ↔ 2 ^ 31 ≤ loc := by
      rw [Nat.testBit_to_div_mod]
      simp only [decide_eq_true_eq]
      omega
    have hne : kAsanMemoryMarker ≠ kInvalidAddressMarker := by decide
    simp only [GetBadAccessClassification]
    split_ifs with h1 h2
    · simp only [Bool.or_eq_true, beq_iff_eq, htb] at h1
      constructor
      · constructor
        · intro _
          exact h1
        · intro _
          rfl
      · constructor
        · intro hcl
          cases hcl
        · intro hcl
          rcases h1 with h1 | h1
          · omega
          · rw [h1] at hcl
            exact absurd hcl.1 hne
    · simp only [Bool.or_eq_true, beq_iff_eq, htb] at h1
      push_neg at h1
      simp only [beq_iff_eq] at h2
      constructor
      · constructor
        · intro hcl
          cases hcl
        · intro hcl
          rcases hcl with hcl | hcl
          · omega
          · exact absurd hcl h1.2
      · constructor
        · intro _
          exact ⟨h2, by omega⟩
        · intro _
          rfl
    · simp only [Bool.or_eq_true, beq_iff_eq, htb] at h1
      push_neg at h1
      simp only [beq_iff_eq] at h2
      constructor
      · constructor
        · intro hcl
          cases hcl
        · intro hcl
          rcases hcl with hcl | hcl
          · omega
          · exact absurd hcl h1.2
      · constructor
        · intro hcl
          cases hcl
        · intro hcl
          exact absurd hcl.1 h2
  · intro sh shadowBase pageBitsBase hsb hpb a ha
    simp only [GetShadowMarkerForAddress, SetUp]
    rw [Poison_outside _ _ _ _ _ ?belowPageBits]
    case belowPageBits =>
      simp only [kAddressLowerBound] at *
      omega
    rw [Poison_apply, if_pos (by decide), if_pos ?inRange]
    case inRange =>
      simp only [kAddressLowerBound, kShadowRatio] at *
      omega

/-- Witness for `C8_bad_access_classification`: the classification part at
a concrete shadow and location. -/
theorem C8_witness :
    (GetBadAccessClassification (fun _ => 0xF1) 128 = BadAccessClass.WILD_ACCESS ↔
      (2 ^ 31 ≤ 128 ∨ GetShadowMarkerForAddress (fun _ => 0xF1) 128 = kAsanMemoryMarker)) ∧
    (GetBadAccessClassification (fun _ => 0xF1) 128 = BadAccessClass.INVALID_ADDRESS ↔
      (GetShadowMarkerForAddress (fun _ => 0xF1) 128 = kInvalidAddressMarker ∧
        128 < 2 ^ 31)) :=
  C8_bad_access_classification.1 (fun _ => 0xF1) 128 (by decide)

/-! ## Properties of the right-scan skip (shadow.cc:543-615) -/

/-- The trailing aligned loop stays within an 8-aligned bound. -/
theorem srTail_le (sh : ShadowMem) (endp pos : Nat) (hp : pos % 8 = 0)
    (he : endp % 8 = 0) (hpe : pos ≤ endp) : srTail sh pos endp ≤ endp := by
  rw [srTail]
  split_ifs with h1 h2
  · exact srTail_le sh endp (pos + 8) (by omega) he (by omega)
  · omega
  · omega
termination_by endp - pos
decreasing_by omega

/-- Every byte the trailing aligned loop passes over is addressable or freed. -/
theorem srTail_skipped (sh : ShadowMem) (endp pos : Nat) :
    ∀ q, pos ≤ q → q < srTail sh pos endp → sh q = 0 ∨ sh q = kHeapFreedMarker := by
  intro q hq1 hq2
  by_cases h1 : pos < endp
  · by_cases h2 : chunkSkippable sh pos 8 = true
    · rw [srTail, if_pos h1, if_pos h2] at hq2
      by_cases hq : q < pos + 8
      · simp only [chunkSkippable, Bool.or_eq_true, chunkAll, decide_eq_true_eq] at h2
        rcases h2 with h2 | h2
        · refine Or.inl ?_
          have := h2 (q - pos) (by omega)
          rwa [show pos + (q - pos) = q from by omega] at this
        · refine Or.inr ?_
          have := h2 (q - pos) (by omega)
          rwa [show pos + (q - pos) = q from by omega] at this
      · exact srTail_skipped sh endp (pos + 8) q (by omega) hq2
    · rw [srTail, if_pos h1, if_neg h2] at hq2
      omega
  · rw [srTail, if_neg h1] at hq2
    omega
termination_by endp - pos
decreasing_by omega

/-- Bytes of a skippable chunk are addressable or freed. -/
theorem chunkSkippable_bytes (sh : ShadowMem) (b n : Nat)
    (hc : chunkSkippable sh b n = true) :
    ∀ q, b ≤ q → q < b + n → sh q = 0 ∨ sh q = kHeapFreedMarker := by
  intro q h1 h2
  simp only [chunkSkippable, Bool.or_eq_true, chunkAll, decide_eq_true_eq] at hc
  rcases hc with hc | hc
  · refine Or.inl ?_
    have := hc (q - b) (by omega)
    rwa [show b + (q - b) = q from by omega] at this
  · refine Or.inr ?_
    have := hc (q - b) (by omega)
    rwa [show b + (q - b) = q from by omega] at this

/-- The skip stays within an 8-aligned bound. -/
theorem ScanRightForPotentialHeaderBytes_le (sh : ShadowMem) (pos endp : Nat)
    (he : endp % 8 = 0) (hlt : pos < endp) :
    ScanRightForPotentialHeaderBytes sh pos endp ≤ endp := by
  simp only [ScanRightForPotentialHeaderBytes]
  split_ifs <;> first
    | omega
    | exact srTail_le sh endp _ (by omega) he (by omega)

/-- Every byte the skip passes over is addressable or freed. -/
theorem ScanRightForPotentialHeaderBytes_skipped (sh : ShadowMem) (pos endp : Nat) :
    ∀ q, pos ≤ q → q < ScanRightForPotentialHeaderBytes sh pos endp →
      sh q = 0 ∨ sh q = kHeapFreedMarker := by
  intro q hq h2
  have hcb := chunkSkippable_bytes sh
  have htail : ∀ p, p ≤ q → q < srTail sh p endp →
      sh q = 0 ∨ sh q = kHeapFreedMarker :=
    fun p h1 h2 => srTail_skipped sh endp p q h1 h2
  simp only [ScanRightForPotentialHeaderBytes] at h2
  by_cases r1 : pos % 8 = 1
  · rw [if_pos r1] at h2
    by_cases c1 : chunkSkippable sh pos 1
    · rw [if_neg (by simp [c1])] at h2
      by_cases c2 : chunkSkippable sh (pos + 1) 2
      · rw [if_neg (by simp [c2])] at h2
        by_cases c3 : chunkSkippable sh (pos + 3) 4
        · rw [if_neg (by simp [c3])] at h2
          rcases Nat.lt_or_ge q (pos + 1) with hc | hc
          · exact hcb pos 1 c1 q hq hc
          · rcases Nat.lt_or_ge q (pos + 3) with hd | hd
            · exact hcb (pos + 1) 2 c2 q hc hd
            · rcases Nat.lt_or_ge q (pos + 7) with he | he
              · exact hcb (pos + 3) 4 c3 q hd he
              · exact htail (pos + 7) he h2
        · rw [if_pos (by simp [c3])] at h2
          rcases Nat.lt_or_ge q (pos + 1) with hc | hc
          · exact hcb pos 1 c1 q hq hc
          · exact hcb (pos + 1) 2 c2 q hc (by omega)
      · rw [if_pos (by simp [c2])] at h2
        exact hcb pos 1 c1 q hq (by omega)
    · rw [if_pos c1] at h2
      omega
  · rw [if_neg r1] at h2
    by_cases r2 : pos % 8 = 2
    · rw [if_pos r2] at h2
      by_cases c1 : chunkSkippable sh pos 2
      · rw [if_neg (by simp [c1])] at h2
        by_cases c2 : chunkSkippable sh (pos + 2) 4
        · rw [if_neg (by simp [c2])] at h2
          rcases Nat.lt_or_ge q (pos + 2) with hc | hc
          · exact hcb pos 2 c1 q hq hc
          · rcases Nat.lt_or_ge q (pos + 6) with hd | hd
            · exact hcb (pos + 2) 4 c2 q hc hd
            · exact htail (pos + 6) hd h2
        · rw [if_pos (by simp [c2])] at h2
          exact hcb pos 2 c1 q hq (by omega)
      · rw [if_pos c1] at h2
        omega
    · rw [if_neg r2] at h2
      by_cases r3 : pos % 8 = 3
      · rw [if_pos r3] at h2
        by_cases c1 : chunkSkippable sh pos 1
        · rw [if_neg (by simp [c1])] at h2
          by_cases c2 : chunkSkippable sh (pos + 1) 4
          · rw [if_neg (by simp [c2])] at h2
            rcases Nat.lt_or_ge q (pos + 1) with hc | hc
            · exact hcb pos 1 c1 q hq hc
            · rcases Nat.lt_or_ge q (pos + 5) with hd | hd
              · exact hcb (pos + 1) 4 c2 q hc hd
              · exact htail (pos + 5) hd h2
          · rw [if_pos (by simp [c2])] at h2
            exact hcb pos 1 c1 q hq (by omega)
        · rw [if_pos c1] at h2
          omega
      · rw [if_neg r3] at h2
        by_cases r4 : pos % 8 = 4
        · rw [if_pos r4] at h2
          by_cases c1 : chunkSkippable sh pos 4
          · rw [if_neg (by simp [c1])] at h2
            rcases Nat.lt_or_ge q (pos + 4) with hc | hc
            · exact hcb pos 4 c1 q hq hc
            · exact htail (pos + 4) hc h2
          · rw [if_pos c1] at h2
            omega
        · rw [if_neg r4] at h2
          by_cases r5 : pos % 8 = 5
          · rw [if_pos r5] at h2
            by_cases c1 : chunkSkippable sh pos 1
            · rw [if_neg (by simp [c1])] at h2
              by_cases c2 : chunkSkippable sh (pos + 1) 2
              · rw [if_neg (by simp [c2])] at h2
                rcases Nat.lt_or_ge q (pos + 1) with hc | hc
                · exact hcb pos 1 c1 q hq hc
                · rcases Nat.lt_or_ge q (pos + 3) with hd | hd
                  · exact hcb (pos + 1) 2 c2 q hc hd
                  · exact htail (pos + 3) hd h2
              · rw [if_pos (by simp [c2])] at h2
                exact hcb pos 1 c1 q hq (by omega)
            · rw [if_pos c1] at h2
              omega
          · rw [if_neg r5] at h2
            by_cases r6 : pos % 8 = 6
            · rw [if_pos r6] at h2
              by_cases c1 : chunkSkippable sh pos 2
              · rw [if_neg (by simp [c1])] at h2
                rcases Nat.lt_or_ge q (pos + 2) with hc | hc
                · exact hcb pos 2 c1 q hq hc
                · exact htail (pos + 2) hc h2
              · rw [if_pos c1] at h2
                omega
            · rw [if_neg r6] at h2
              by_cases r7 : pos % 8 = 7
              · rw [if_pos r7] at h2
                by_cases c1 : chunkSkippable sh pos 1
                · rw [if_neg (by simp [c1])] at h2
                  rcases Nat.lt_or_ge q (pos + 1) with hc | hc
                  · exact hcb pos 1 c1 q hq hc
                  · exact htail (pos + 1) hc h2
                · rw [if_pos c1] at h2
                  omega
              · rw [if_neg r7] at h2
                exact htail pos hq h2

/-- A byte that is neither addressable nor freed stops the skip on the spot. -/
theorem ScanRightForPotentialHeaderBytes_stop (sh : ShadowMem) (pos endp : Nat)
    (h0 : sh pos ≠ 0) (hf : sh pos ≠ kHeapFreedMarker) (hlt : pos < endp) :
    ScanRightForPotentialHeaderBytes sh pos endp = pos := by
  have hcs : ∀ n, 0 < n → chunkSkippable sh pos n = false := by
    intro n hn
    simp only [chunkSkippable, Bool.or_eq_false_iff]
    constructor
    · simp only [chunkAll, decide_eq_false_iff_not]
      intro hall
      exact h0 (by simpa using hall 0 hn)
    · simp only [chunkAll, decide_eq_false_iff_not]
      intro hall
      exact hf (by simpa using hall 0 hn)
  have htail : srTail sh pos endp = pos := by
    rw [srTail, if_pos hlt, if_neg (by simp [hcs 8 (by omega)])]
  have c1 := hcs 1 (by omega)
  have c2 := hcs 2 (by omega)
  have c4 := hcs 4 (by omega)
  simp only [ScanRightForPotentialHeaderBytes, c1, c2, c4, Bool.false_eq_true,
    not_false_eq_true, if_true]
  split_ifs <;> first | rfl | exact htail

/-! ## The right scan is equivalent to a byte-wise scan -/

/-- Byte-at-a-time reference version of the right-scan loop: the chunked
skip only ever passes over addressable and freed bytes, which the loop
body ignores anyway. -/
def scanRightSimple (sh : ShadowMem) (pos : Nat) (depth : Int) : Option Nat :=
  if pos < kShadowSize then
    if isBlockEnd (sh pos) then
      if depth = 0 then some pos
      else if ¬ isNestedBlockEnd (sh pos) then none
      else scanRightSimple sh (pos + 1) (depth - 1)
    else if isBlockStart (sh pos) then
      if 0 < depth + 1 ∧ ¬ isNestedBlockStart (sh pos) then none
      else scanRightSimple sh (pos + 1) (depth + 1)
    else scanRightSimple sh (pos + 1) depth
  else none
termination_by kShadowSize - pos
decreasing_by all_goals omega

/-- Addressable and freed bytes are neither block ends nor block starts. -/
theorem neutral_of_zero_or_freed (m : Nat) (h : m = 0 ∨ m = kHeapFreedMarker) :
    isBlockEnd m = false ∧ isBlockStart m = false := by
  rcases h with h | h <;> rw [h] <;> exact ⟨by decide, by decide⟩

/-- A byte that is neither a block end nor a block start just moves the
byte-wise scan one position right. -/
theorem scanRightSimple_step (sh : ShadowMem) (pos : Nat) (depth : Int)
    (hp : pos < kShadowSize) (h1 : isBlockEnd (sh pos) = false)
    (h2 : isBlockStart (sh pos) = false) :
    scanRightSimple sh pos depth = scanRightSimple sh (pos + 1) depth := by
  rw [scanRightSimple, if_pos hp, if_neg (by simp [h1]), if_neg (by simp [h2])]

/-- The byte-wise scan ignores a stretch of addressable and freed bytes. -/
theorem scanRightSimple_congr (sh : ShadowMem) (q : Nat) (hq : q ≤ kShadowSize)
    (p : Nat) (depth : Int) (hpq : p ≤ q)
    (hskip : ∀ r, p ≤ r → r < q → sh r = 0 ∨ sh r = kHeapFreedMarker) :
    scanRightSimple sh p depth = scanRightSimple sh q depth := by
  by_cases he : p = q
  · rw [he]
  · have hn := neutral_of_zero_or_freed (sh p) (hskip p (le_refl p) (by omega))
    rw [scanRightSimple_step sh p depth (by omega) hn.1 hn.2]
    exact scanRightSimple_congr sh q hq (p + 1) depth (by omega)
      (fun r h1 h2 => hskip r (by omega) h2)
termination_by q - p
decreasing_by omega

/-- The chunk-accelerated right-scan loop computes the same result as the
byte-wise scan. -/
theorem ScanRightLoop_eq (sh : ShadowMem) (pos : Nat) (depth : Int) :
    ScanRightLoop sh pos depth = scanRightSimple sh pos depth := by
  by_cases hp : pos < kShadowSize
  · have hge := ScanRightForPotentialHeaderBytes_ge sh pos kShadowSize
    have hle := ScanRightForPotentialHeaderBytes_le sh pos kShadowSize (by decide) hp
    have hskip := ScanRightForPotentialHeaderBytes_skipped sh pos kShadowSize
    have hcongr : scanRightSimple sh pos depth =
        scanRightSimple sh (ScanRightForPotentialHeaderBytes sh pos kShadowSize) depth :=
      scanRightSimple_congr sh _ hle pos depth hge (fun r h1 h2 => hskip r h1 h2)
    rw [ScanRightLoop, dif_pos hp, hcongr]
    by_cases hend : ScanRightForPotentialHeaderBytes sh pos kShadowSize = kShadowSize
    · rw [if_pos hend, hend, scanRightSimple, if_neg (by omega)]
    · have hlt : ScanRightForPotentialHeaderBytes sh pos kShadowSize < kShadowSize := by
        omega
      rw [if_neg hend]
      by_cases h1 : isBlockEnd (sh (ScanRightForPotentialHeaderBytes sh pos kShadowSize))
      · rw [if_pos h1]
        by_cases h2 : depth = 0
        · rw [if_pos h2, scanRightSimple, if_pos hlt, if_pos h1, if_pos h2]
        · rw [if_neg h2]
          by_cases h3 : isNestedBlockEnd
              (sh (ScanRightForPotentialHeaderBytes sh pos kShadowSize))
          · rw [if_neg (by simp [h3]), scanRightSimple, if_pos hlt, if_pos h1,
              if_neg h2, if_neg (by simp [h3])]
            exact ScanRightLoop_eq sh _ (depth - 1)
          · rw [if_pos (by simp [h3]), scanRightSimple, if_pos hlt, if_pos h1,
              if_neg h2, if_pos (by simp [h3])]
      · rw [if_neg h1]
        by_cases h4 : isBlockStart (sh (ScanRightForPotentialHeaderBytes sh pos kShadowSize))
        · rw [if_pos h4]
          by_cases h5 : 0 < depth + 1 ∧
              ¬ isNestedBlockStart (sh (ScanRightForPotentialHeaderBytes sh pos kShadowSize))
          · rw [if_pos h5, scanRightSimple, if_pos hlt, if_neg (by simp [h1]),
              if_pos h4, if_pos h5]
          · rw [if_neg h5, scanRightSimple, if_pos hlt, if_neg (by simp [h1]),
              if_pos h4, if_neg h5]
            exact ScanRightLoop_eq sh _ (depth + 1)
        · rw [if_neg h4, scanRightSimple, if_pos hlt, if_neg (by simp [h1]),
            if_neg (by simp [h4])]
          exact ScanRightLoop_eq sh _ depth
  · rw [ScanRightLoop, dif_neg hp, scanRightSimple, if_neg hp]
termination_by kShadowSize - pos
decreasing_by all_goals omega

/-! ## Left-scan lemmas -/

/-- At a block-start byte with depth 0 the left scan succeeds on the spot. -/
theorem ScanLeftLoop_at_start (sh : ShadowMem) (g : Nat)
    (h : isBlockStart (sh g) = true) : ScanLeftLoop sh g 0 = some g := by
  rw [ScanLeftLoop, if_pos ⟨h, rfl⟩]

/-- A byte that is neither a block start nor a block end moves the left
scan one position left. -/
theorem ScanLeftLoop_step (sh : ShadowMem) (g : Nat) (depth : Int)
    (hg : kLowerBound < g) (h1 : isBlockStart (sh g) = false)
    (h2 : isBlockEnd (sh g) = false) :
    ScanLeftLoop sh g depth = ScanLeftLoop sh (g - 1) depth := by
  rw [ScanLeftLoop, if_neg (by simp [h1]), if_neg (by simp [h1]),
    if_neg (by simp [h2]), if_neg (by omega)]
  rw [if_neg (by simp [h1]), if_neg (by simp [h2])]

/-- Scanning left over neutral bytes from `g` down to a block-start byte
at `target` finds `target`. -/
theorem ScanLeftLoop_reach (sh : ShadowMem) (target : Nat)
    (ht : isBlockStart (sh target) = true) (htb : kLowerBound ≤ target)
    (g : Nat) (hg : target ≤ g)
    (hn : ∀ q, target < q → q ≤ g →
      isBlockStart (sh q) = false ∧ isBlockEnd (sh q) = false) :
    ScanLeftLoop sh g 0 = some target := by
  by_cases he : g = target
  · rw [he]
    exact ScanLeftLoop_at_start sh target ht
  · have h := hn g (by omega) (le_refl g)
    rw [ScanLeftLoop_step sh g 0 (by omega) h.1 h.2]
    exact ScanLeftLoop_reach sh target ht htb (g - 1) (by omega)
      (fun q h1 h2 => hn q h1 (by omega))
termination_by g
decreasing_by omega

/-- Scanning right (byte-wise) over neutral bytes from `p` up to a
block-end byte at `target` finds `target`. -/
theorem scanRightSimple_reach (sh : ShadowMem) (target : Nat)
    (ht : target < kShadowSize) (hend : isBlockEnd (sh target) = true)
    (p : Nat) (hp : p ≤ target)
    (hn : ∀ r, p ≤ r → r < target →
      isBlockEnd (sh r) = false ∧ isBlockStart (sh r) = false) :
    scanRightSimple sh p 0 = some target := by
  by_cases he : p = target
  · rw [he, scanRightSimple, if_pos ht, if_pos hend, if_pos rfl]
  · have h := hn p (le_refl p) (by omega)
    rw [scanRightSimple_step sh p 0 (by omega) h.1 h.2]
    exact scanRightSimple_reach sh target ht hend (p + 1) (by omega)
      (fun r h1 h2 => hn r (by omega) h2)
termination_by target - p
decreasing_by omega

/-! ## Claim C5: malformed shadow makes recovery fail -/

/-- Claim C5: during the left scan, encountering a non-nested block-start
byte while the tracked depth is still positive returns failure; during
the right scan, encountering a non-nested block-end byte while the depth
is still positive returns failure; and a failed scan makes
`BlockInfoFromShadow` produce no block info. -/
theorem C5_malformed_shadow_fails (sh : ShadowMem) (pos : Nat) (depth : Int) :
    (isBlockStart (sh pos) = true → isNestedBlockStart (sh pos) = false →
      0 < depth → ScanLeftLoop sh pos depth = none) ∧
    (isBlockEnd (sh pos) = true → isNestedBlockEnd (sh pos) = false →
      0 < depth → pos < kShadowSize → ScanRightLoop sh pos depth = none) ∧
    (∀ initialDepth addr,
      ScanLeftForBracketingBlockStart sh initialDepth (addr / kShadowRatio) = none →
      BlockInfoFromShadowImpl sh initialDepth addr = none) ∧
    (∀ initialDepth addr,
      ScanRightForBracketingBlockEnd sh initialDepth (addr / kShadowRatio) = none →
      BlockInfoFromShadowImpl sh initialDepth addr = none) := by
  refine ⟨?_, ?_, ?_, ?_⟩
  · intro h1 h2 h3
    rw [ScanLeftLoop, if_neg (by simp [h1]; omega), if_pos ⟨h1, by simp [h2]⟩]
  · intro h1 h2 h3 h4
    have hstop : ScanRightForPotentialHeaderBytes sh pos kShadowSize = pos := by
      refine ScanRightForPotentialHeaderBytes_stop sh pos kShadowSize ?_ ?_ h4 <;>
      · simp only [isBlockEnd, Bool.or_eq_true, beq_iff_eq, kHeapBlockEndMarker,
          kHeapNestedBlockEndMarker, kHeapFreedMarker] at h1 ⊢
        omega
    rw [ScanRightLoop, dif_pos h4]
    simp only [hstop]
    rw [if_neg (by omega), if_pos h1, if_neg (by omega), if_pos (by simp [h2])]
  · intro d addr hnone
    simp only [BlockInfoFromShadowImpl, hnone]
  · intro d addr hnone
    simp only [BlockInfoFromShadowImpl, hnone]
    cases hl : ScanLeftForBracketingBlockStart sh d (addr / kShadowRatio) <;> rfl

/-- Witness for `C5_malformed_shadow_fails`: a shadow that is a wall of
non-nested block-start bytes, scanned at depth 1. -/
theorem C5_witness : ScanLeftLoop (fun _ => 0xE0) 9000 1 = none :=
  (C5_malformed_shadow_fails (fun _ => 0xE0) 9000 1).1 (by decide) (by decide)
    (by decide)

/-! ## Padding-skip lemmas and marker-builder facts -/

/-- `skipLeftPad` stops at the first non-left-padding byte. -/
theorem skipLeftPad_reach (sh : ShadowMem) (m right : Nat)
    (hmr : m ≤ right) (hstop : m = right ∨ sh m ≠ kHeapLeftPaddingMarker)
    (l : Nat) (hl : l ≤ m)
    (hpad : ∀ q, l ≤ q → q < m → sh q = kHeapLeftPaddingMarker) :
    skipLeftPad sh l right = m := by
  by_cases he : l = m
  · rcases hstop with hstop | hstop
    · rw [skipLeftPad, if_neg (by omega)]
      omega
    · rw [skipLeftPad, if_neg (by rw [he]; intro hc; exact hstop hc.2)]
      omega
  · rw [skipLeftPad, if_pos ⟨by omega, hpad l (le_refl l) (by omega)⟩]
    exact skipLeftPad_reach sh m right hmr hstop (l + 1) (by omega)
      (fun q h1 h2 => hpad q (by omega) h2)
termination_by m - l
decreasing_by omega

/-- `skipRightPad` stops just past the last right-padding byte. -/
theorem skipRightPad_reach (sh : ShadowMem) (m left : Nat)
    (hlm : left ≤ m) (hstop : m = left ∨ sh (m - 1) ≠ kHeapRightPaddingMarker)
    (r : Nat) (hr : m ≤ r)
    (hpad : ∀ q, m ≤ q → q < r → sh q = kHeapRightPaddingMarker) :
    skipRightPad sh left r = m := by
  by_cases he : r = m
  · rcases hstop with hstop | hstop
    · rw [skipRightPad, if_neg (by omega)]
      omega
    · rw [skipRightPad, if_neg (by rw [he]; intro hc; exact hstop hc.2)]
      omega
  · rw [skipRightPad, if_pos ⟨by omega, hpad (r - 1) (by omega) (by omega)⟩]
    exact skipRightPad_reach sh m left hlm hstop (r - 1) (by omega)
      (fun q h1 h2 => hpad q h1 (by omega))
termination_by r - m
decreasing_by omega

theorem isBlockStart_build (nested : Bool) (d : Nat) :
    isBlockStart (buildBlockStart nested d) = true := by
  cases nested <;>
    simp only [buildBlockStart, Bool.false_eq_true, Bool.true_eq_false, if_true,
      if_false, ite_true, ite_false, isBlockStart, kHeapBlockStartMarker0,
      kHeapNestedBlockStartMarker0, Bool.and_eq_true, decide_eq_true_eq] <;>
    omega

theorem isNestedBlockStart_build (nested : Bool) (d : Nat) :
    isNestedBlockStart (buildBlockStart nested d) = nested := by
  cases nested
  · simp only [buildBlockStart, Bool.false_eq_true, if_false, ite_false,
      isNestedBlockStart, kHeapBlockStartMarker0, kHeapNestedBlockStartMarker0,
      Bool.and_eq_false_iff, decide_eq_false_iff_not]
    omega
  · simp only [buildBlockStart, if_true, ite_true, isNestedBlockStart,
      kHeapBlockStartMarker0, kHeapNestedBlockStartMarker0, Bool.and_eq_true,
      decide_eq_true_eq]
    omega

theorem getBlockStartData_build (nested : Bool) (d : Nat) (hd : d < 8) :
    getBlockStartData (buildBlockStart nested d) = d := by
  cases nested <;>
    simp only [buildBlockStart, if_true, if_false, ite_true, ite_false,
      Bool.false_eq_true, getBlockStartData, kHeapBlockStartMarker0,
      kHeapNestedBlockStartMarker0] <;>
    omega

theorem isBlockEnd_build (nested : Bool) :
    isBlockEnd (buildBlockEnd nested) = true := by
  cases nested <;> decide

/-- A block-end byte is neither a block start nor a left padding byte. -/
theorem buildBlockEnd_facts (nested : Bool) :
    isBlockStart (buildBlockEnd nested) = false ∧
    buildBlockEnd nested ≠ 0 ∧ buildBlockEnd nested ≠ kHeapFreedMarker := by
  cases nested <;> exact ⟨by decide, by decide, by decide⟩

/-- Bytes at most 7 (addressable and partial forms) are neutral for the
bracketing scans. -/
theorem neutral_le7 (m : Nat) (h : m ≤ 7) :
    isBlockStart m = false ∧ isBlockEnd m = false := by
  constructor
  · simp only [isBlockStart, Bool.and_eq_false_iff, decide_eq_false_iff_not,
      kHeapBlockStartMarker0]
    omega
  · simp only [isBlockEnd, Bool.or_eq_false_iff, beq_eq_false_iff_ne, ne_eq,
      kHeapBlockEndMarker, kHeapNestedBlockEndMarker]
    omega

theorem neutral_leftpad :
    isBlockStart kHeapLeftPaddingMarker = false ∧
    isBlockEnd kHeapLeftPaddingMarker = false := ⟨by decide, by decide⟩

theorem neutral_rightpad :
    isBlockStart kHeapRightPaddingMarker = false ∧
    isBlockEnd kHeapRightPaddingMarker = false := ⟨by decide, by decide⟩

set_option maxHeartbeats 1000000 in
/-- The shadow bytes written by `PoisonAllocatedBlock`, byte by byte, for a
block at granule `idx` with `L` left-redzone granules, body `n` bytes and
`R` right-redzone granules. -/
theorem PoisonAllocatedBlock_spec (sh : ShadowMem) (idx L R n : Nat) (nested : Bool)
    (hL : 1 ≤ L) (hR : 1 ≤ R) :
    ∀ j, PoisonAllocatedBlock sh
        ⟨8 * idx, 8 * (L + (n + 7) / 8 + R), 8 * (idx + L), n, nested⟩ j =
      if j = idx then buildBlockStart nested (n % 8)
      else if idx < j ∧ j < idx + L then kHeapLeftPaddingMarker
      else if n % 8 ≠ 0 ∧ j = idx + L + (n + 7) / 8 - 1 then n % 8
      else if idx + L ≤ j ∧ j < idx + L + (n + 7) / 8 then 0
      else if idx + L + (n + 7) / 8 ≤ j ∧ j < idx + L + (n + 7) / 8 + R - 1 then
        kHeapRightPaddingMarker
      else if j = idx + L + (n + 7) / 8 + R - 1 then buildBlockEnd nested
      else sh j := by
  intro j
  have h81 : n + 8 - 1 = n + 7 := by omega
  have hidx8 : 8 * idx / 8 = idx := by omega
  have hlrb : (8 * (idx + L) - 8 * idx) / 8 = L := by omega
  have hbl : 8 * (L + (n + 7) / 8 + R) / 8 = L + (n + 7) / 8 + R := by omega
  by_cases hmod : 0 < n % 8 <;>
    simp only [PoisonAllocatedBlock, kShadowRatio, kHeapAddressableMarker, hmod,
      if_true, if_false, ite_true, ite_false, updateByte_apply, memset_apply,
      h81, hidx8, hlrb, hbl] <;>
    split_ifs <;> omega

set_option maxHeartbeats 1000000 in
/-- Round trip at granule level: poisoning a block with `L` left-redzone
granules, an `n`-byte body and `R` right-redzone granules, then recovering
block info from the body address, yields exactly the planned layout, and
the body address is recognised as the beginning of a block body. -/
theorem PoisonAllocatedBlock_roundtrip (sh : ShadowMem) (idx L R n : Nat) (nested : Bool)
    (hidx : kLowerBound ≤ idx) (hL : 2 ≤ L) (hR : 2 ≤ R)
    (hub : idx + L + (n + 7) / 8 + R ≤ kShadowSize) :
    BlockInfoFromShadow
        (PoisonAllocatedBlock sh
          ⟨8 * idx, 8 * (L + (n + 7) / 8 + R), 8 * (idx + L), n, nested⟩)
        (8 * (idx + L)) =
      some ⟨8 * idx, 8 * (L + (n + 7) / 8 + R), 8 * L,
            8 * (L + (n + 7) / 8 + R) - 8 * L - n, nested⟩ ∧
    IsBeginningOfBlockBody
        (PoisonAllocatedBlock sh
          ⟨8 * idx, 8 * (L + (n + 7) / 8 + R), 8 * (idx + L), n, nested⟩)
        (8 * (idx + L)) = true := by
  have hspec := PoisonAllocatedBlock_spec sh idx L R n nested (by omega) (by omega)
  have hstart : PoisonAllocatedBlock sh
      ⟨8 * idx, 8 * (L + (n + 7) / 8 + R), 8 * (idx + L), n, nested⟩ idx =
      buildBlockStart nested (n % 8) := by
    rw [hspec idx, if_pos rfl]
  have hleft : ∀ j, idx < j → j < idx + L →
      PoisonAllocatedBlock sh
        ⟨8 * idx, 8 * (L + (n + 7) / 8 + R), 8 * (idx + L), n, nested⟩ j =
      kHeapLeftPaddingMarker := by
    intro j h1 h2
    rw [hspec j, if_neg (by omega), if_pos ⟨h1, h2⟩]
  have hrpad : ∀ j, idx + L + (n + 7) / 8 ≤ j → j < idx + L + (n + 7) / 8 + R - 1 →
      PoisonAllocatedBlock sh
        ⟨8 * idx, 8 * (L + (n + 7) / 8 + R), 8 * (idx + L), n, nested⟩ j =
      kHeapRightPaddingMarker := by
    intro j h1 h2
    rw [hspec j, if_neg (by omega), if_neg (by omega), if_neg (by omega),
      if_neg (by omega), if_pos ⟨h1, h2⟩]
  have hend : PoisonAllocatedBlock sh
      ⟨8 * idx, 8 * (L + (n + 7) / 8 + R), 8 * (idx + L), n, nested⟩
      (idx + L + (n + 7) / 8 + R - 1) = buildBlockEnd nested := by
    rw [hspec _, if_neg (by omega), if_neg (by omega), if_neg (by omega),
      if_neg (by omega), if_neg (by omega), if_pos rfl]
  have hneutral : ∀ q, idx < q → q < idx + L + (n + 7) / 8 + R - 1 →
      isBlockStart (PoisonAllocatedBlock sh
        ⟨8 * idx, 8 * (L + (n + 7) / 8 + R), 8 * (idx + L), n, nested⟩ q) = false ∧
      isBlockEnd (PoisonAllocatedBlock sh
        ⟨8 * idx, 8 * (L + (n + 7) / 8 + R), 8 * (idx + L), n, nested⟩ q) = false := by
    intro q h1 h2
    by_cases hq1 : q < idx + L
    · rw [hleft q h1 hq1]
      exact neutral_leftpad
    · by_cases hq2 : q < idx + L + (n + 7) / 8
      · by_cases hq3 : n % 8 ≠ 0 ∧ q = idx + L + (n + 7) / 8 - 1
        · rw [hspec q, if_neg (by omega), if_neg (by omega), if_pos hq3]
          exact neutral_le7 _ (by omega)
        · rw [hspec q, if_neg (by omega), if_neg (by omega), if_neg hq3,
            if_pos ⟨by omega, hq2⟩]
          exact neutral_le7 0 (by omega)
      · rw [hrpad q (by omega) h2]
        exact neutral_rightpad
  have hscanL : ScanLeftForBracketingBlockStart
      (PoisonAllocatedBlock sh
        ⟨8 * idx, 8 * (L + (n + 7) / 8 + R), 8 * (idx + L), n, nested⟩)
      0 (idx + L) = some idx := by
    rw [ScanLeftForBracketingBlockStart,
      if_neg (by simp [(hneutral (idx + L) (by omega) (by omega)).2])]
    exact ScanLeftLoop_reach _ idx
      (by rw [hstart]; exact isBlockStart_build nested (n % 8)) hidx (idx + L)
      (by omega) (fun q h1 h2 => hneutral q h1 (by omega))
  have hscanR : ScanRightForBracketingBlockEnd
      (PoisonAllocatedBlock sh
        ⟨8 * idx, 8 * (L + (n + 7) / 8 + R), 8 * (idx + L), n, nested⟩)
      0 (idx + L) = some (idx + L + (n + 7) / 8 + R - 1) := by
    rw [ScanRightForBracketingBlockEnd,
      if_neg (by simp [(hneutral (idx + L) (by omega) (by omega)).1])]
    rw [ScanRightLoop_eq]
    exact scanRightSimple_reach _ (idx + L + (n + 7) / 8 + R - 1) (by omega)
      (by rw [hend]; exact isBlockEnd_build nested) (idx + L) (by omega)
      (fun r h1 h2 =>
        ⟨(hneutral r (by omega) (by omega)).2, (hneutral r (by omega) (by omega)).1⟩)
  have hSbodyFirstNe : PoisonAllocatedBlock sh
      ⟨8 * idx, 8 * (L + (n + 7) / 8 + R), 8 * (idx + L), n, nested⟩ (idx + L) ≠
      kHeapLeftPaddingMarker := by
    by_cases hbb0 : (n + 7) / 8 = 0
    · rw [hrpad (idx + L) (by omega) (by omega)]
      decide
    · by_cases hp : n % 8 ≠ 0 ∧ idx + L = idx + L + (n + 7) / 8 - 1
      · rw [hspec _, if_neg (by omega), if_neg (by omega), if_pos hp]
        simp only [kHeapLeftPaddingMarker]
        omega
      · rw [hspec _, if_neg (by omega), if_neg (by omega), if_neg hp,
          if_pos ⟨le_refl _, by omega⟩]
        decide
  have hskipL : skipLeftPad
      (PoisonAllocatedBlock sh
        ⟨8 * idx, 8 * (L + (n + 7) / 8 + R), 8 * (idx + L), n, nested⟩)
      (idx + 1) (idx + L + (n + 7) / 8 + R - 1 + 1) = idx + L :=
    skipLeftPad_reach _ (idx + L) _ (by omega) (Or.inr hSbodyFirstNe) (idx + 1)
      (by omega) (fun q h1 h2 => hleft q (by omega) h2)
  have hlastBodyNe : (n + 7) / 8 ≠ 0 → PoisonAllocatedBlock sh
      ⟨8 * idx, 8 * (L + (n + 7) / 8 + R), 8 * (idx + L), n, nested⟩
      (idx + L + (n + 7) / 8 - 1) ≠ kHeapRightPaddingMarker := by
    intro hbb0
    by_cases hp : n % 8 ≠ 0
    · rw [hspec _, if_neg (by omega), if_neg (by omega), if_pos ⟨hp, rfl⟩]
      simp only [kHeapRightPaddingMarker]
      omega
    · rw [hspec _, if_neg (by omega), if_neg (by omega), if_neg (by omega),
        if_pos ⟨by omega, by omega⟩]
      decide
  have hskipR : skipRightPad
      (PoisonAllocatedBlock sh
        ⟨8 * idx, 8 * (L + (n + 7) / 8 + R), 8 * (idx + L), n, nested⟩)
      (idx + L) (idx + L + (n + 7) / 8 + R - 1) = idx + L + (n + 7) / 8 := by
    refine skipRightPad_reach _ (idx + L + (n + 7) / 8) (idx + L) (by omega) ?_ _
      (by omega) (fun q h1 h2 => hrpad q h1 h2)
    by_cases hbb0 : (n + 7) / 8 = 0
    · exact Or.inl (by omega)
    · exact Or.inr (hlastBodyNe hbb0)
  have hdiv : 8 * (idx + L) / 8 = idx + L := by omega
  have hmod0 : 8 * (idx + L) % 8 = 0 := by omega
  have hback : PoisonAllocatedBlock sh
      ⟨8 * idx, 8 * (L + (n + 7) / 8 + R), 8 * (idx + L), n, nested⟩
      ((8 * (idx + L) - 1) / 8) = kHeapLeftPaddingMarker := by
    rw [show (8 * (idx + L) - 1) / 8 = idx + L - 1 from by omega]
    exact hleft _ (by omega) (by omega)
  constructor
  · simp only [BlockInfoFromShadow, BlockInfoFromShadowImpl, kShadowRatio, hdiv,
      hscanL, hscanR, Nat.add_sub_cancel, hskipL, hskipR, hstart,
      isNestedBlockStart_build, getBlockStartData_build nested (n % 8) (by omega)]
    simp only [Option.some.injEq, CompactBlockInfo.mk.injEq]
    repeat' apply And.intro
    all_goals first | trivial | (split_ifs <;> omega) | omega
  · rw [IsBeginningOfBlockBody]
    by_cases hn0 : n = 0
    · have hby : PoisonAllocatedBlock sh
          ⟨8 * idx, 8 * (L + (n + 7) / 8 + R), 8 * (idx + L), n, nested⟩ (idx + L) =
          kHeapRightPaddingMarker := hrpad _ (by omega) (by omega)
      have hirr : IsRightRedzone
          (PoisonAllocatedBlock sh
            ⟨8 * idx, 8 * (L + (n + 7) / 8 + R), 8 * (idx + L), n, nested⟩)
          (8 * (idx + L)) = true := by
        simp only [IsRightRedzone, hdiv, hby]
        rw [if_neg (by decide), if_neg (by decide)]
        decide
      rw [if_pos (by simp [hirr])]
      simp only [IsLeftRedzone, GetShadowMarkerForAddress, hback]
      decide
    · have hbyte : PoisonAllocatedBlock sh
          ⟨8 * idx, 8 * (L + (n + 7) / 8 + R), 8 * (idx + L), n, nested⟩ (idx + L) = 0 ∨
          (PoisonAllocatedBlock sh
            ⟨8 * idx, 8 * (L + (n + 7) / 8 + R), 8 * (idx + L), n, nested⟩ (idx + L) =
              n % 8 ∧ n % 8 ≠ 0) := by
        by_cases hp : n % 8 ≠ 0 ∧ idx + L = idx + L + (n + 7) / 8 - 1
        · refine Or.inr ⟨?_, hp.1⟩
          rw [hspec _, if_neg (by omega), if_neg (by omega), if_pos hp]
        · refine Or.inl ?_
          rw [hspec _, if_neg (by omega), if_neg (by omega), if_neg hp,
            if_pos ⟨le_refl _, by omega⟩]
      have hacc : IsAccessible
          (PoisonAllocatedBlock sh
            ⟨8 * idx, 8 * (L + (n + 7) / 8 + R), 8 * (idx + L), n, nested⟩)
          (8 * (idx + L)) = true := by
        rcases hbyte with hb | hb
        · simp [IsAccessible, hdiv, hb]
        · simp only [IsAccessible, hdiv, hmod0, hb.1]
          rw [if_neg hb.2, if_neg ?notred]
          case notred =>
            simp only [isRedzone, kHeapPartiallyAddressableByte7, decide_eq_true_eq]
            omega
          simp only [decide_eq_true_eq]
          omega
      rw [if_pos (by simp [hacc])]
      simp only [IsLeftRedzone, GetShadowMarkerForAddress, hback]
      decide

/-! ## Claim C1: envelope round-trip -/

theorem alignUp_spec (x a : Nat) (ha : 0 < a) :
    x ≤ alignUp x a ∧ alignUp x a % a = 0 ∧ alignUp x a < x + a := by
  have hdm := Nat.div_add_mod (x + a - 1) a
  have hml : (x + a - 1) % a < a := Nat.mod_lt _ ha
  have hmul : alignUp x a = a * ((x + a - 1) / a) := by
    simp only [alignUp]
    ring
  refine ⟨?_, ?_, ?_⟩
  · rw [hmul]
    omega
  · rw [hmul]
    exact Nat.mul_mod_right a _
  · rw [hmul]
    omega

theorem alignUp_mod8 (x a : Nat) (ha : 0 < a) (h8 : a % 8 = 0) :
    alignUp x a % 8 = 0 := by
  have h1 : (8 : Nat) ∣ a := Nat.dvd_of_mod_eq_zero h8
  have h2 : a ∣ alignUp x a :=
    Nat.dvd_of_mod_eq_zero ((alignUp_spec x a ha).2.1)
  rcases h1.trans h2 with ⟨c, hc⟩
  rw [hc]
  exact Nat.mul_mod_right 8 c

/-- Claim C1: envelope round-trip. For any alignment `2^(j+3)` (8, 16, 32,
64, ...) and body size up to `2^20`, after laying out a block at an aligned
base above the 64 KiB lower bound (and within the 2 GiB space), running the
(spec-modelled) `BlockInitialize` and then `Shadow::PoisonAllocatedBlock`,
`BlockInfoFromShadow` on the body address succeeds and recovers exactly the
planned info — block base, block size, header (left redzone) size, trailer
(right redzone) size and the nesting flag, hence also the body address and
body size — and `IsBeginningOfBlockBody` holds at the body address. -/
theorem C1_envelope_roundtrip (sh : ShadowMem) (j n B : Nat) (nested : Bool)
    (hn : n ≤ 2 ^ 20)
    (halign : B % (2 ^ (j + 3)) = 0)
    (hlo : kAddressLowerBound ≤ B)
    (hhi : B + (BlockPlanLayout (2 ^ (j + 3)) n).2 ≤ kAddressUpperBound) :
    BlockInfoFromShadow
        (PoisonAllocatedBlock sh (BlockInitialize (2 ^ (j + 3)) n B nested))
        (BlockInitialize (2 ^ (j + 3)) n B nested).body =
      some ⟨B, (BlockPlanLayout (2 ^ (j + 3)) n).2, (BlockPlanLayout (2 ^ (j + 3)) n).1,
            (BlockPlanLayout (2 ^ (j + 3)) n).2 - (BlockPlanLayout (2 ^ (j + 3)) n).1 - n,
            nested⟩ ∧
    (BlockInitialize (2 ^ (j + 3)) n B nested).body =
      B + (BlockPlanLayout (2 ^ (j + 3)) n).1 ∧
    (BlockInitialize (2 ^ (j + 3)) n B nested).body_size = n ∧
    IsBeginningOfBlockBody
        (PoisonAllocatedBlock sh (BlockInitialize (2 ^ (j + 3)) n B nested))
        (BlockInitialize (2 ^ (j + 3)) n B nested).body = true := by
  have hapos : 0 < 2 ^ (j + 3) := Nat.pos_pow_of_pos _ (by omega)
  have ha8 : 2 ^ (j + 3) % 8 = 0 := by
    rw [pow_add]
    simp [Nat.mul_mod]
  have hB8 : B % 8 = 0 := by
    have h1 : (8 : Nat) ∣ 2 ^ (j + 3) := Nat.dvd_of_mod_eq_zero ha8
    have h2 : 2 ^ (j + 3) ∣ B := Nat.dvd_of_mod_eq_zero halign
    rcases h1.trans h2 with ⟨c, hc⟩
    rw [hc]
    exact Nat.mul_mod_right 8 c
  have hoff := alignUp_spec 16 (2 ^ (j + 3)) hapos
  have hoff8 := alignUp_mod8 16 (2 ^ (j + 3)) hapos ha8
  have hbs := alignUp_spec (alignUp 16 (2 ^ (j + 3)) + n + 16) (2 ^ (j + 3)) hapos
  have hbs8 := alignUp_mod8 (alignUp 16 (2 ^ (j + 3)) + n + 16) (2 ^ (j + 3)) hapos ha8
  have hinfo : BlockInitialize (2 ^ (j + 3)) n B nested =
      ⟨8 * (B / 8),
       8 * (alignUp 16 (2 ^ (j + 3)) / 8 + (n + 7) / 8 +
         (alignUp (alignUp 16 (2 ^ (j + 3)) + n + 16) (2 ^ (j + 3)) / 8 -
           alignUp 16 (2 ^ (j + 3)) / 8 - (n + 7) / 8)),
       8 * (B / 8 + alignUp 16 (2 ^ (j + 3)) / 8), n, nested⟩ := by
    simp only [BlockInitialize, BlockPlanLayout, kBlockHeaderSize, kBlockTrailerSize,
      BlockInfo.mk.injEq]
    repeat' apply And.intro
    all_goals first | trivial | omega
  have hks : kShadowSize = 268435456 := by decide
  have hkl : kLowerBound = 8192 := by decide
  have hkal : kAddressLowerBound = 65536 := by decide
  have hkau : kAddressUpperBound = 2147483648 := by decide
  have hhi2 : B + alignUp (alignUp 16 (2 ^ (j + 3)) + n + 16) (2 ^ (j + 3)) ≤
      2147483648 := by
    simp only [BlockPlanLayout, kBlockHeaderSize, kBlockTrailerSize, hkau] at hhi
    exact hhi
  have hround := PoisonAllocatedBlock_roundtrip sh (B / 8)
    (alignUp 16 (2 ^ (j + 3)) / 8)
    (alignUp (alignUp 16 (2 ^ (j + 3)) + n + 16) (2 ^ (j + 3)) / 8 -
      alignUp 16 (2 ^ (j + 3)) / 8 - (n + 7) / 8)
    n nested (by omega) (by omega) (by omega) (by omega)
  rw [hinfo]
  refine ⟨?_, ?_, rfl, hround.2⟩
  · rw [hround.1]
    simp only [Option.some.injEq, CompactBlockInfo.mk.injEq, BlockPlanLayout,
      kBlockHeaderSize, kBlockTrailerSize]
    repeat' apply And.intro
    all_goals first | trivial | omega
  · simp only [BlockPlanLayout, kBlockHeaderSize, kBlockTrailerSize]
    omega

/-- Witness for `C1_envelope_roundtrip` at a concrete input: alignment 8,
body size 10, block base 65536. -/
theorem C1_witness :
    BlockInfoFromShadow
        (PoisonAllocatedBlock (fun _ => 0) (BlockInitialize (2 ^ (0 + 3)) 10 65536 false))
        (BlockInitialize (2 ^ (0 + 3)) 10 65536 false).body =
      some ⟨65536, (BlockPlanLayout (2 ^ (0 + 3)) 10).2,
            (BlockPlanLayout (2 ^ (0 + 3)) 10).1,
            (BlockPlanLayout (2 ^ (0 + 3)) 10).2 -
              (BlockPlanLayout (2 ^ (0 + 3)) 10).1 - 10,
            false⟩ ∧
    (BlockInitialize (2 ^ (0 + 3)) 10 65536 false).body =
      65536 + (BlockPlanLayout (2 ^ (0 + 3)) 10).1 ∧
    (BlockInitialize (2 ^ (0 + 3)) 10 65536 false).body_size = 10 ∧
    IsBeginningOfBlockBody
        (PoisonAllocatedBlock (fun _ => 0) (BlockInitialize (2 ^ (0 + 3)) 10 65536 false))
        (BlockInitialize (2 ^ (0 + 3)) 10 65536 false).body = true :=
  C1_envelope_roundtrip (fun _ => 0) 0 10 65536 false (by decide) (by decide)
    (by decide) (by decide)
